import Mathlib

/-!
Verification of the refresh-token lifecycle of the
`definitive-authentication-service` repository, as a shallow embedding.

Conventions used throughout:

* Go `time.Time` instants are modelled as integers (`Time := Int`,
  nanoseconds since the epoch); `a.After(b)` is `b < a` and
  `now.Add(ttl)` is `now + ttl`.
* The two HMAC-SHA256 signing primitives of the JWT codec are modelled by
  abstract tag functions `macA`/`macR` (secret and claims to signature
  string); a compact-serialized JWT is modelled by its parsed content, a
  `SignedToken` structure holding the claims and the signature tag.
* `crypto/sha256` followed by `encoding/hex` is modelled by an abstract
  function `hash : String -> String`; facts that in reality hold only up to
  hash collisions appear as explicit hypotheses on `hash` at the theorems.
* `bcrypt.CompareHashAndPassword` is modelled by an abstract boolean
  predicate `bcryptMatch` (stored hash, supplied password).
* The gorm-backed stores are modelled as in-memory lists.  Because both
  `Person` and `RefreshTokenRecord` embed `gorm.Model` (which carries a
  `DeletedAt` field), gorm performs soft deletion: `Delete` sets the
  tombstone and every ordinary query implicitly excludes tombstoned rows.
  The model keeps tombstoned rows in the list with `deletedAt = some _`,
  exactly as the rows stay in the database table.
* gorm-assigned primary keys are modelled with a `nextID` counter;
  `CreatedAt`/`UpdatedAt` columns are omitted (no queried behavior reads
  them).
-/

namespace AuthService

/-- Go `time.Time`, as nanoseconds since the epoch. -/
abbrev Time := Int

/-! ## Token codec (utils: IssueAccessToken / IssueRefreshToken /
ParseAccessToken / ParseRefreshToken; the earlier revision's `IssueToken` /
`ParseToken` has the identical body as the access-token pair). -/

/-- Claims of an access token: {role, subject, issued-at, expires-at}
(utils `AccessClaims`, and the earlier `Claims`). -/
structure AccessClaims where
  role : String
  subject : String
  issuedAt : Time
  expiresAt : Time
deriving Repr, DecidableEq

/-- Claims of a refresh token: {jti, subject, issued-at, expires-at}
(utils `RefreshClaims`; `id` is the JWT `ID`/jti registered claim). -/
structure RefreshClaims where
  id : String
  subject : String
  issuedAt : Time
  expiresAt : Time
deriving Repr, DecidableEq

/-- A signed JWT in parsed form: the claims plus the HMAC signature tag
computed over them.  Models the compact-serialized string the Go code
passes around. -/
structure SignedToken (C : Type) where
  claims : C
  sig : String
deriving Repr, DecidableEq

/-- `utils.IssueAccessToken(subject, role, secret, ttl)`: claims with
issued-at = now and expires-at = now + ttl, signed with HS256 under
`secret` (the signing step never fails in the model, matching a correctly
configured key). -/
def IssueAccessToken (macA : String → AccessClaims → String)
    (subject role secret : String) (ttl now : Time) : SignedToken AccessClaims :=
  let claims : AccessClaims := ⟨role, subject, now, now + ttl⟩
  ⟨claims, macA secret claims⟩

/-- `utils.IssueRefreshToken(subject, jti, secret, ttl)`. -/
def IssueRefreshToken (macR : String → RefreshClaims → String)
    (subject jti secret : String) (ttl now : Time) : SignedToken RefreshClaims :=
  let claims : RefreshClaims := ⟨jti, subject, now, now + ttl⟩
  ⟨claims, macR secret claims⟩

/-- `utils.ParseAccessToken(token, secret)`: succeeds only when the HMAC
tag verifies under `secret` and the registered-claims validation of
golang-jwt v4 passes (expires-at strictly in the future, issued-at not in
the future).  All failures collapse to `none`, matching the single
`InvalidToken`-style error surface. -/
def ParseAccessToken (macA : String → AccessClaims → String)
    (tok : SignedToken AccessClaims) (secret : String) (now : Time) :
    Option AccessClaims :=
  if tok.sig = macA secret tok.claims ∧
      now < tok.claims.expiresAt ∧ tok.claims.issuedAt ≤ now then
    some tok.claims
  else
    none

/-- `utils.ParseRefreshToken(token, secret)`. -/
def ParseRefreshToken (macR : String → RefreshClaims → String)
    (tok : SignedToken RefreshClaims) (secret : String) (now : Time) :
    Option RefreshClaims :=
  if tok.sig = macR secret tok.claims ∧
      now < tok.claims.expiresAt ∧ tok.claims.issuedAt ≤ now then
    some tok.claims
  else
    none

/-! ## Password validator (internal/person/password_validator.go). -/

/-- The three sentinel errors of the password validator. -/
inductive PasswordError where
  | errPasswordNotAlphanumeric
  | errPasswordDoesNotHaveSpecialCharacter
  | errPasswordShouldBeNCharacters
deriving Repr, DecidableEq

/-- Go `len(password)`: the UTF-8 byte length of the string. -/
def goLen (s : String) : Nat :=
  s.data.foldl (fun n c => n + c.utf8Size) 0

/-- `checkLength`: Go byte length at least `PASSWORD_MINIMUM_LENGTH` = 8. -/
def checkLength (password : String) : Bool :=
  decide (8 ≤ goLen password)

/-- An ASCII letter in the sense of `checkAlphanumeric`'s range tests. -/
def isGoLetter (c : Char) : Bool :=
  ('a' ≤ c && c ≤ 'z') || ('A' ≤ c && c ≤ 'Z')

/-- An ASCII digit in the sense of `checkAlphanumeric`'s range test. -/
def isGoDigit (c : Char) : Bool :=
  '0' ≤ c && c ≤ '9'

/-- `checkAlphanumeric`: the rune loop sets `hasLetter`/`hasDigit` flags
and requires both, i.e. some rune is an ASCII letter and some rune is an
ASCII digit. -/
def checkAlphanumeric (password : String) : Bool :=
  password.data.any isGoLetter && password.data.any isGoDigit

/-- The rune content of the Go literal special-character set
(codepoints 123/125/39/34/96 spelled numerically: left brace, right brace,
apostrophe, double quote, backtick). -/
def specialCharacters : List Char :=
  ['!', '@', '#', '$', '%', '^', '&', '*', '(', ')', '-', '_', '=', '+',
   '[', ']', Char.ofNat 123, Char.ofNat 125, '|', ';', ':', Char.ofNat 39,
   Char.ofNat 34, ',', '.', '<', '>', '?', Char.ofNat 47, Char.ofNat 96, '~']

/-- `containsRune(s, r)`: some rune of `s` equals `r`. -/
def containsRune (s : List Char) (r : Char) : Bool :=
  s.any (fun c => c == r)

/-- `checkSpecialCharacter`: some rune of the password is in the special
set. -/
def checkSpecialCharacter (password : String) : Bool :=
  password.data.any (fun c => containsRune specialCharacters c)

/-- `CheckPassword`: length, then letter-and-digit, then special
character; `none` models the Go `nil` return. -/
def CheckPassword (password : String) : Option PasswordError :=
  if !checkLength password then
    some .errPasswordShouldBeNCharacters
  else if !checkAlphanumeric password then
    some .errPasswordNotAlphanumeric
  else if !checkSpecialCharacter password then
    some .errPasswordDoesNotHaveSpecialCharacter
  else
    none

/-! ## Data model (person model, authentication/model.go) and the two
gorm-backed stores. -/

/-- `person.Person` (gorm.Model fields flattened: `id` is the primary key,
`deletedAt` the soft-delete tombstone; `CreatedAt`/`UpdatedAt` omitted). -/
structure Person where
  id : Nat
  email : String
  password : String
  lastSeen : Time
  role : String
  deletedAt : Option Time
deriving Repr, DecidableEq

/-- `authentication.RefreshTokenRecord` (gorm.Model fields flattened).
`refreshToken` carries the stored hash and is covered by a database
unique index; `deletedAt` is the gorm soft-delete tombstone. -/
structure RefreshTokenRecord where
  id : Nat
  personID : Nat
  refreshToken : String
  expiresAt : Time
  deletedAt : Option Time
deriving Repr, DecidableEq

/-- The database of record: the persons table, the refresh-token-records
table (tombstoned rows included, as in the real tables), and the next
gorm-assigned primary key for record inserts. -/
structure Store where
  persons : List Person
  records : List RefreshTokenRecord
  nextID : Nat
deriving Repr, DecidableEq

/-- Errors of the record repository (part of the authentication package).
`errDuplicateKey` stands for the postgres unique-violation surfaced when an
insert hits the `refreshToken` unique index (the repository's `Create`
returns it wrapped). -/
inductive RepoError where
  | errRecordNotFoundByGivenToken
  | errUnresponsiveDatabase
  | errDuplicateKey
deriving Repr, DecidableEq

/-- The person repository failure relevant to the engine
(`person.ErrPersonNotFound`). -/
inductive PersonError where
  | errPersonNotFound
deriving Repr, DecidableEq

/-- Errors surfaced by the authentication service.  `repoError` models the
raw repository error values the service passes through unchanged (Login's
create failure, Logout's non-not-found failure). -/
inductive AuthError where
  | errInvalidCredentials
  | errLoginFailed
  | errInvalidRefreshToken
  | repoError (e : RepoError)
deriving Repr, DecidableEq

/-- The record-query visibility condition shared by `ReadByToken`,
`Rotate` and `DeleteByToken`: the record itself is not soft-deleted (gorm's
implicit default scope on a model with `DeletedAt`) and the JOIN against a
non-soft-deleted owning person succeeds. -/
def recVisible (st : Store) (rec : RefreshTokenRecord) : Bool :=
  rec.deletedAt.isNone &&
    st.persons.any (fun p => p.id == rec.personID && p.deletedAt.isNone)

/-- The `First` query by token hash common to `ReadByToken`, `Rotate` and
`DeleteByToken`: the first visible record whose `refreshToken` equals the
given hash. -/
def findVisible (st : Store) (token : String) : Option RefreshTokenRecord :=
  st.records.find? (fun rec => rec.refreshToken == token && recVisible st rec)

/-- `recordRepository.Create`: transactional insert of a fresh row; the
unique index on `refreshToken` (covering every physical row, tombstoned
ones included) rejects a duplicate hash. -/
def Create (st : Store) (personID : Nat) (token : String) (expiresAt : Time) :
    Except RepoError Store :=
  if st.records.any (fun r => r.refreshToken == token) then
    .error .errDuplicateKey
  else
    .ok { st with
          records := st.records ++ [⟨st.nextID, personID, token, expiresAt, none⟩],
          nextID := st.nextID + 1 }

/-- `recordRepository.ReadByToken`: the visible row for the hash, or
`ErrRecordNotFoundByGivenToken`. -/
def ReadByToken (st : Store) (token : String) : Except RepoError RefreshTokenRecord :=
  match findVisible st token with
  | some rec => .ok rec
  | none => .error .errRecordNotFoundByGivenToken

/-- `recordRepository.Rotate`: in one transaction, re-resolve the old hash
to a live row and save it back with the new hash and expiry (`Save` writes
by primary key); the save trips the unique index if another physical row
already holds the new hash. -/
def Rotate (st : Store) (oldToken newToken : String) (newExpiry : Time) :
    Except RepoError Store :=
  match findVisible st oldToken with
  | none => .error .errRecordNotFoundByGivenToken
  | some rec =>
      if st.records.any (fun r => !(r.id == rec.id) && r.refreshToken == newToken) then
        .error .errUnresponsiveDatabase
      else
        .ok { st with
              records := st.records.map (fun r =>
                if r.id == rec.id then
                  { r with refreshToken := newToken, expiresAt := newExpiry }
                else r) }

/-- `recordRepository.DeleteByToken`: gorm soft delete of the visible rows
matching the hash (an UPDATE setting the tombstone, because the model has a
`DeletedAt` column); zero affected rows is `ErrRecordNotFoundByGivenToken`. -/
def DeleteByToken (st : Store) (token : String) (now : Time) :
    Except RepoError Store :=
  if st.records.any (fun r => r.refreshToken == token && recVisible st r) then
    .ok { st with
          records := st.records.map (fun r =>
            if r.refreshToken == token && recVisible st r then
              { r with deletedAt := some now }
            else r) }
  else
    .error .errRecordNotFoundByGivenToken

/-- The store a fallible delete leaves behind when its result is ignored
(the service discards `DeleteByToken`'s error with a blank assignment). -/
def orKeep (res : Except RepoError Store) (st : Store) : Store :=
  match res with
  | .ok st2 => st2
  | .error _ => st

/-- `personRepository.ReadByEmail` via `personService.ReadPersonByEmail`:
first person with the email whose tombstone is unset. -/
def ReadPersonByEmail (st : Store) (email : String) : Except PersonError Person :=
  match st.persons.find? (fun p => p.email == email && p.deletedAt.isNone) with
  | some p => .ok p
  | none => .error .errPersonNotFound

/-- `personRepository.ReadByID` via `personService.ReadPersonByID`. -/
def ReadPersonByID (st : Store) (id : Nat) : Except PersonError Person :=
  match st.persons.find? (fun p => p.id == id && p.deletedAt.isNone) with
  | some p => .ok p
  | none => .error .errPersonNotFound

/-- `personService.UpdateLastSeen`: load the person and save it back with
the last-seen timestamp set to now; a lookup failure leaves the store
unchanged (the caller only logs it). -/
def UpdateLastSeen (st : Store) (id : Nat) (now : Time) : Store :=
  match st.persons.find? (fun p => p.id == id && p.deletedAt.isNone) with
  | none => st
  | some p =>
      { st with persons := st.persons.map (fun q =>
          if q.id == p.id then { q with lastSeen := now } else q) }

/-! ## Authentication service, revision in src/internal/authentication/service.go
(single signing secret, opaque-UUID refresh tokens). -/

/-- The immutable fields of `authenticationService` (service.go lines
30-37): one JWT secret and the two TTLs. -/
structure AuthConfig where
  jwtSecret : String
  accessTokenTTL : Time
  refreshTokenTTL : Time
deriving Repr, DecidableEq

/-- `authenticationService.Login` (service.go lines 54-106).  `rawRefresh`
is the value `uuid.NewString()` produced in this call; `now` is the
current time; the access token is issued with `utils.IssueToken`, whose
body equals `IssueAccessToken`.  The fire-and-forget last-seen goroutine
is not part of the returned state transition (it runs after the response;
`UpdateLastSeen` models its store effect separately).  Returns the result
together with the store left behind. -/
def Login (macA : String → AccessClaims → String) (hash : String → String)
    (bcryptMatch : String → String → Bool) (cfg : AuthConfig)
    (now : Time) (rawRefresh : String) (st : Store) (email password : String) :
    Except AuthError (SignedToken AccessClaims × String) × Store :=
  match ReadPersonByEmail st email with
  | .error .errPersonNotFound => (.error .errInvalidCredentials, st)
  | .ok user =>
      if !bcryptMatch user.password password then
        (.error .errInvalidCredentials, st)
      else
        let accessToken :=
          IssueAccessToken macA (toString user.id) user.role cfg.jwtSecret
            cfg.accessTokenTTL now
        let hashed := hash rawRefresh
        match Create st user.id hashed (now + cfg.refreshTokenTTL) with
        | .error e => (.error (.repoError e), st)
        | .ok st2 => (.ok (accessToken, rawRefresh), st2)

/-- `authenticationService.Logout` (service.go lines 108-121): hash the
presented token, hard-delete-in-intent via `DeleteByToken`; a
zero-rows-matched result is `ErrInvalidRefreshToken`, any other failure is
passed through. -/
def Logout (hash : String → String) (now : Time) (st : Store)
    (refreshToken : String) : Except AuthError Unit × Store :=
  match DeleteByToken st (hash refreshToken) now with
  | .error .errRecordNotFoundByGivenToken => (.error .errInvalidRefreshToken, st)
  | .error e => (.error (.repoError e), st)
  | .ok st2 => (.ok (), st2)

/-- `authenticationService.Refresh` (service.go lines 123-173): hash the
presented token; resolve the row (`ErrInvalidRefreshToken` when unknown);
if the row's expiry has passed, soft-delete it (result discarded) and
reject; otherwise load the owner, issue a fresh access token, and rotate
the row to the hash of the fresh `uuid.NewString()` value `rawNew` with a
new expiry.  Any rotate failure is mapped to `ErrLoginFailed`. -/
def Refresh (macA : String → AccessClaims → String) (hash : String → String)
    (cfg : AuthConfig) (now : Time) (rawNew : String) (st : Store)
    (oldRefreshToken : String) :
    Except AuthError (SignedToken AccessClaims × String) × Store :=
  let hashedOld := hash oldRefreshToken
  match ReadByToken st hashedOld with
  | .error .errRecordNotFoundByGivenToken => (.error .errInvalidRefreshToken, st)
  | .error _ => (.error .errLoginFailed, st)
  | .ok rec =>
      if rec.expiresAt < now then
        (.error .errInvalidRefreshToken, orKeep (DeleteByToken st hashedOld now) st)
      else
        match ReadPersonByID st rec.personID with
        | .error _ => (.error .errLoginFailed, st)
        | .ok user =>
            let newAccessToken :=
              IssueAccessToken macA (toString user.id) user.role cfg.jwtSecret
                cfg.accessTokenTTL now
            let hashedNew := hash rawNew
            match Rotate st hashedOld hashedNew (now + cfg.refreshTokenTTL) with
            | .error _ => (.error .errLoginFailed, st)
            | .ok st2 => (.ok (newAccessToken, rawNew), st2)

/-! ## Later-revision Authentication Engine.

main.go constructs the service with seven arguments (access secret,
access TTL, refresh secret, refresh TTL) and utils ships
`IssueRefreshToken`/`ParseRefreshToken` and a dual-secret `TokenConfig`,
but the service file of that revision is absent from src/ (the present
service.go has the five-parameter, single-secret, opaque-UUID shape and
does not type-check against main.go).  The engine of that revision is
therefore modelled from the spec, on top of the source-derived codec and
stores above. -/

/-- `utils.TokenConfig` (src: config revision with dual secrets): the two
independent signing secrets and the two TTLs, here already converted to
durations as main.go does. -/
structure TokenConfig where
  accessTokenSecret : String
  refreshTokenSecret : String
  accessTokenTTL : Time
  refreshTokenTTL : Time
deriving Repr, DecidableEq

/-- Modelled from the spec: the session-id persistence loop of the
later-revision Login (spec 4.3 Login step 4), missing from src/.  `jtis`
is the stream of freshly generated random session ids; each candidate's
one-way hash is inserted, a uniqueness collision triggers a retry with the
next fresh id, and any other store failure aborts.  Returns the session id
that was actually persisted together with the updated store. -/
def persistRefreshRow (hash : String → String) (cfg : TokenConfig)
    (now : Time) (personID : Nat) :
    List String → Store → Except AuthError (String × Store)
  | [], _ => .error .errLoginFailed
  | jti :: rest, st =>
      match Create st personID (hash jti) (now + cfg.refreshTokenTTL) with
      | .ok st2 => .ok (jti, st2)
      | .error .errDuplicateKey => persistRefreshRow hash cfg now personID rest st
      | .error e => .error (.repoError e)

/-- Modelled from the spec: the later-revision `Login` (spec 4.3 Login),
missing from src/ — only its caller (main.go), its codec
(`IssueRefreshToken`) and its configuration (`TokenConfig`) are present.
Resolve the account (not-found and password mismatch both merge to
`InvalidCredentials`), issue the access credential under the access
secret, persist the hash of a fresh session id with collision retry, and
only then hand out the refresh credential carrying that session id, signed
under the distinct refresh secret. -/
def LoginV2 (macA : String → AccessClaims → String)
    (macR : String → RefreshClaims → String) (hash : String → String)
    (bcryptMatch : String → String → Bool) (cfg : TokenConfig)
    (now : Time) (jtis : List String) (st : Store) (email password : String) :
    Except AuthError (SignedToken AccessClaims × SignedToken RefreshClaims) × Store :=
  match ReadPersonByEmail st email with
  | .error .errPersonNotFound => (.error .errInvalidCredentials, st)
  | .ok user =>
      if !bcryptMatch user.password password then
        (.error .errInvalidCredentials, st)
      else
        let accessToken :=
          IssueAccessToken macA (toString user.id) user.role
            cfg.accessTokenSecret cfg.accessTokenTTL now
        match persistRefreshRow hash cfg now user.id jtis st with
        | .error e => (.error e, st)
        | .ok (jti, st2) =>
            (.ok (accessToken,
                  IssueRefreshToken macR (toString user.id) jti
                    cfg.refreshTokenSecret cfg.refreshTokenTTL now), st2)

/-- Modelled from the spec: the later-revision `Refresh` (spec 4.3
Refresh), missing from src/.  Step 1 verifies the signature and embedded
expiry of the presented refresh credential under the refresh secret and
fails with `InvalidRefreshToken` before any store access; the remaining
steps hash the embedded session id, resolve the row, reject-and-delete an
expired row, load the owner, and atomically rotate to the hash of the
fresh session id `newJti` (a lost rotation is observed as
`InvalidRefreshToken`, spec section 7). -/
def RefreshV2 (macA : String → AccessClaims → String)
    (macR : String → RefreshClaims → String) (hash : String → String)
    (cfg : TokenConfig) (now : Time) (newJti : String) (st : Store)
    (oldRefreshToken : SignedToken RefreshClaims) :
    Except AuthError (SignedToken AccessClaims × SignedToken RefreshClaims) × Store :=
  match ParseRefreshToken macR oldRefreshToken cfg.refreshTokenSecret now with
  | none => (.error .errInvalidRefreshToken, st)
  | some claims =>
      let hashedOld := hash claims.id
      match ReadByToken st hashedOld with
      | .error .errRecordNotFoundByGivenToken => (.error .errInvalidRefreshToken, st)
      | .error _ => (.error .errLoginFailed, st)
      | .ok rec =>
          if rec.expiresAt < now then
            (.error .errInvalidRefreshToken, orKeep (DeleteByToken st hashedOld now) st)
          else
            match ReadPersonByID st rec.personID with
            | .error _ => (.error .errLoginFailed, st)
            | .ok user =>
                let newAccessToken :=
                  IssueAccessToken macA (toString user.id) user.role
                    cfg.accessTokenSecret cfg.accessTokenTTL now
                match Rotate st hashedOld (hash newJti) (now + cfg.refreshTokenTTL) with
                | .error .errRecordNotFoundByGivenToken =>
                    (.error .errInvalidRefreshToken, st)
                | .error _ => (.error .errLoginFailed, st)
                | .ok st2 =>
                    (.ok (newAccessToken,
                          IssueRefreshToken macR (toString user.id) newJti
                            cfg.refreshTokenSecret cfg.refreshTokenTTL now), st2)

/-- Modelled from the spec: the later-revision `Logout` (spec 4.3 Logout),
missing from src/.  Verify signature/expiry first (failure is
`InvalidRefreshToken`, store untouched), then hash the embedded session id
and delete the matching row, reporting `InvalidRefreshToken` when no row
matched. -/
def LogoutV2 (macR : String → RefreshClaims → String) (hash : String → String)
    (cfg : TokenConfig) (now : Time) (st : Store)
    (refreshToken : SignedToken RefreshClaims) : Except AuthError Unit × Store :=
  match ParseRefreshToken macR refreshToken cfg.refreshTokenSecret now with
  | none => (.error .errInvalidRefreshToken, st)
  | some claims =>
      match DeleteByToken st (hash claims.id) now with
      | .error .errRecordNotFoundByGivenToken => (.error .errInvalidRefreshToken, st)
      | .error e => (.error (.repoError e), st)
      | .ok st2 => (.ok (), st2)

/-! ## Interleaving model for two concurrent `Refresh` calls.

Each store call of service.go's `Refresh` is one atomic transaction
(`ReadByToken`, `DeleteByToken`, `Rotate` each run in their own
transaction); between them the goroutines interleave freely.  A thread is
therefore modelled as a phase machine whose steps are exactly its atomic
store transactions; the in-memory work between two transactions (the
expiry comparison, issuing the access token) is folded into the adjacent
step, and the owner lookup — a read of the persons table, which no
`Refresh` ever writes — is folded into the rotate step, where service.go
performs it between the two record transactions. -/

/-- The phase of one in-flight `Refresh` call: before its read
transaction, about to soft-delete an expired row, about to rotate the row
it read, or finished with the call's result. -/
inductive RPhase where
  | start
  | deleting
  | rotating (rec : RefreshTokenRecord)
  | done (res : Except AuthError (SignedToken AccessClaims × String))
deriving Repr

/-- One atomic store transaction of a `Refresh oldRefreshToken` call that
will rotate to `raw` if it wins, following service.go's `Refresh` exactly. -/
def rstep (macA : String → AccessClaims → String) (hash : String → String)
    (cfg : AuthConfig) (now : Time) (oldRefreshToken raw : String)
    (st : Store) : RPhase → Store × RPhase
  | .start =>
      match ReadByToken st (hash oldRefreshToken) with
      | .error .errRecordNotFoundByGivenToken =>
          (st, .done (.error .errInvalidRefreshToken))
      | .error _ => (st, .done (.error .errLoginFailed))
      | .ok rec =>
          if rec.expiresAt < now then (st, .deleting) else (st, .rotating rec)
  | .deleting =>
      (orKeep (DeleteByToken st (hash oldRefreshToken) now) st,
       .done (.error .errInvalidRefreshToken))
  | .rotating rec =>
      match ReadPersonByID st rec.personID with
      | .error _ => (st, .done (.error .errLoginFailed))
      | .ok user =>
          match Rotate st (hash oldRefreshToken) (hash raw)
              (now + cfg.refreshTokenTTL) with
          | .error _ => (st, .done (.error .errLoginFailed))
          | .ok st2 =>
              (st2, .done (.ok
                (IssueAccessToken macA (toString user.id) user.role
                  cfg.jwtSecret cfg.accessTokenTTL now, raw)))
  | .done res => (st, .done res)

/-- Shared state of the race: the store and the two threads' phases. -/
structure RaceState where
  store : Store
  p1 : RPhase
  p2 : RPhase
deriving Repr

/-- Scheduler step: `true` lets thread 1 run its next atomic transaction,
`false` thread 2.  Both threads present the same `oldRefreshToken`; thread
i would rotate to its own fresh value `raw_i`. -/
def raceStep (macA : String → AccessClaims → String) (hash : String → String)
    (cfg : AuthConfig) (now : Time) (oldRefreshToken raw1 raw2 : String)
    (rs : RaceState) : Bool → RaceState
  | true =>
      ⟨(rstep macA hash cfg now oldRefreshToken raw1 rs.store rs.p1).1,
       (rstep macA hash cfg now oldRefreshToken raw1 rs.store rs.p1).2, rs.p2⟩
  | false =>
      ⟨(rstep macA hash cfg now oldRefreshToken raw2 rs.store rs.p2).1, rs.p1,
       (rstep macA hash cfg now oldRefreshToken raw2 rs.store rs.p2).2⟩

/-- Run the race under a schedule (an arbitrary interleaving of the two
threads' atomic transactions). -/
def runRace (macA : String → AccessClaims → String) (hash : String → String)
    (cfg : AuthConfig) (now : Time) (oldRefreshToken raw1 raw2 : String)
    (st : Store) (sched : List Bool) : RaceState :=
  sched.foldl (raceStep macA hash cfg now oldRefreshToken raw1 raw2)
    ⟨st, .start, .start⟩

/-! ## Reachable states of the engine.

The state transition system generated by the three service operations of
service.go plus the background last-seen touch that a successful Login
spawns.  Alongside the store it tracks the list of raw refresh secrets
handed to clients.  The guards `String.length raw = 36` record that every
raw refresh secret is a `uuid.NewString()` value, which is always its
36-character canonical form. -/

inductive Reachable (macA : String → AccessClaims → String)
    (hash : String → String) (bcryptMatch : String → String → Bool)
    (cfg : AuthConfig) : Store → List String → Prop where
  | init (persons : List Person) (n : Nat) :
      Reachable macA hash bcryptMatch cfg ⟨persons, [], n⟩ []
  | loginOk (st : Store) (issued : List String) (now : Time)
      (rawRefresh email password : String) (a : SignedToken AccessClaims)
      (r : String) (st2 : Store)
      (hprev : Reachable macA hash bcryptMatch cfg st issued)
      (hlen : String.length rawRefresh = 36)
      (hcall : Login macA hash bcryptMatch cfg now rawRefresh st email password
        = (.ok (a, r), st2)) :
      Reachable macA hash bcryptMatch cfg st2 (r :: issued)
  | loginErr (st : Store) (issued : List String) (now : Time)
      (rawRefresh email password : String) (e : AuthError) (st2 : Store)
      (hprev : Reachable macA hash bcryptMatch cfg st issued)
      (hcall : Login macA hash bcryptMatch cfg now rawRefresh st email password
        = (.error e, st2)) :
      Reachable macA hash bcryptMatch cfg st2 issued
  | refreshOk (st : Store) (issued : List String) (now : Time)
      (rawNew oldTok : String) (a : SignedToken AccessClaims) (r : String)
      (st2 : Store)
      (hprev : Reachable macA hash bcryptMatch cfg st issued)
      (hlen : String.length rawNew = 36)
      (hcall : Refresh macA hash cfg now rawNew st oldTok = (.ok (a, r), st2)) :
      Reachable macA hash bcryptMatch cfg st2 (r :: issued)
  | refreshErr (st : Store) (issued : List String) (now : Time)
      (rawNew oldTok : String) (e : AuthError) (st2 : Store)
      (hprev : Reachable macA hash bcryptMatch cfg st issued)
      (hcall : Refresh macA hash cfg now rawNew st oldTok = (.error e, st2)) :
      Reachable macA hash bcryptMatch cfg st2 issued
  | logoutStep (st : Store) (issued : List String) (now : Time) (tok : String)
      (res : Except AuthError Unit) (st2 : Store)
      (hprev : Reachable macA hash bcryptMatch cfg st issued)
      (hcall : Logout hash now st tok = (res, st2)) :
      Reachable macA hash bcryptMatch cfg st2 issued
  | touch (st : Store) (issued : List String) (id : Nat) (now : Time)
      (hprev : Reachable macA hash bcryptMatch cfg st issued) :
      Reachable macA hash bcryptMatch cfg (UpdateLastSeen st id now) issued

/-! ## Helper lemmas about the store operations. -/

/-- Two members of a list whose keys are pairwise distinct and whose keys
agree are the same element. -/
theorem eq_of_mem_of_pairwise_key {α β : Type} (key : α → β) {l : List α}
    (hp : l.Pairwise (fun a b => key a ≠ key b)) {a b : α}
    (ha : a ∈ l) (hb : b ∈ l) (hk : key a = key b) : a = b := by
  induction l with
  | nil => cases ha
  | cons x xs ih =>
      rcases List.pairwise_cons.mp hp with ⟨hx, hxs⟩
      rcases List.mem_cons.mp ha with rfl | ha2
      · rcases List.mem_cons.mp hb with rfl | hb2
        · rfl
        · exact absurd hk (hx _ hb2)
      · rcases List.mem_cons.mp hb with rfl | hb2
        · exact absurd hk.symm (hx _ ha2)
        · exact ih hxs ha2 hb2

/-- Unpacking a successful visible-row lookup: the row is in the table,
carries the looked-up hash, is not tombstoned, and its owner is live. -/
theorem findVisible_spec {st : Store} {tok : String} {rec : RefreshTokenRecord}
    (h : findVisible st tok = some rec) :
    rec ∈ st.records ∧ rec.refreshToken = tok ∧ rec.deletedAt = none ∧
      st.persons.any (fun p => p.id == rec.personID && p.deletedAt.isNone) = true := by
  have hmem := List.mem_of_find?_eq_some h
  have hpred := List.find?_some h
  simp only [Bool.and_eq_true, beq_iff_eq, recVisible, Option.isNone_iff_eq_none] at hpred
  exact ⟨hmem, hpred.1, hpred.2.1, hpred.2.2⟩

/-- A table in which no row carries the hash resolves it to nothing. -/
theorem findVisible_eq_none_of_no_token {st : Store} {tok : String}
    (h : ∀ r ∈ st.records, r.refreshToken ≠ tok) : findVisible st tok = none := by
  refine List.find?_eq_none.mpr (fun r hr => ?_)
  simp only [Bool.and_eq_true, beq_iff_eq, not_and]
  intro hk
  exact absurd hk (h r hr)

/-- `ReadByToken` in terms of `findVisible`. -/
theorem ReadByToken_eq_ok_iff {st : Store} {tok : String} {rec : RefreshTokenRecord} :
    ReadByToken st tok = .ok rec ↔ findVisible st tok = some rec := by
  unfold ReadByToken
  cases h : findVisible st tok <;> simp

/-- A live owning person makes `ReadPersonByID` succeed. -/
theorem ReadPersonByID_isOk_of_any {st : Store} {id : Nat}
    (h : st.persons.any (fun p => p.id == id && p.deletedAt.isNone) = true) :
    ∃ u, ReadPersonByID st id = .ok u := by
  unfold ReadPersonByID
  cases hf : st.persons.find? (fun p => p.id == id && p.deletedAt.isNone) with
  | some p => exact ⟨p, rfl⟩
  | none =>
      rcases List.any_eq_true.mp h with ⟨p, hp, hpred⟩
      exact absurd hpred (List.find?_eq_none.mp hf p hp)

/-- When the hash does not resolve to a visible row, `Refresh` rejects the
token with `InvalidRefreshToken` and leaves the store untouched. -/
theorem Refresh_of_findVisible_none {macA : String → AccessClaims → String}
    {hash : String → String} {cfg : AuthConfig} {now : Time} {raw : String}
    {st : Store} {t : String}
    (h : findVisible st (hash t) = none) :
    Refresh macA hash cfg now raw st t = (.error .errInvalidRefreshToken, st) := by
  unfold Refresh ReadByToken
  simp only [h]

/-- When the hash resolves to no row at all, `Refresh` rejects the token
with `InvalidRefreshToken` and leaves the store untouched. -/
theorem Refresh_of_no_row {macA : String → AccessClaims → String}
    {hash : String → String} {cfg : AuthConfig} {now : Time} {raw : String}
    {st : Store} {t : String}
    (h : ∀ r ∈ st.records, r.refreshToken ≠ hash t) :
    Refresh macA hash cfg now raw st t = (.error .errInvalidRefreshToken, st) :=
  Refresh_of_findVisible_none (findVisible_eq_none_of_no_token h)

/-- A rotation whose old hash resolves and whose new hash is fresh for the
whole table succeeds and rewrites exactly the resolved row. -/
theorem Rotate_eq_ok {st : Store} {oldTok newTok : String} {e : Time}
    {rec : RefreshTokenRecord}
    (hfv : findVisible st oldTok = some rec)
    (hfresh : ∀ r ∈ st.records, r.refreshToken ≠ newTok) :
    Rotate st oldTok newTok e =
      .ok { st with records := st.records.map (fun r =>
              if r.id == rec.id then
                { r with refreshToken := newTok, expiresAt := e }
              else r) } := by
  have hany : st.records.any
      (fun r => !(r.id == rec.id) && r.refreshToken == newTok) = false := by
    rw [Bool.eq_false_iff]
    intro hx
    rcases List.any_eq_true.mp hx with ⟨r, hr, hpr⟩
    simp only [Bool.and_eq_true, beq_iff_eq] at hpr
    exact hfresh r hr hpr.2
  unfold Rotate
  simp only [hfv, hany, Bool.false_eq_true, if_false]

/-- Rows surviving a successful rotation: the rewritten row carries the
new hash; under pairwise-distinct hashes (the unique index) no surviving
row carries the old hash. -/
theorem Rotate_ok_no_old_token {st : Store} {oldTok newTok : String} {e : Time}
    {rec : RefreshTokenRecord}
    (hwf : st.records.Pairwise (fun a b => a.refreshToken ≠ b.refreshToken))
    (hfv : findVisible st oldTok = some rec)
    (hne : newTok ≠ oldTok) :
    ∀ r2 ∈ (st.records.map (fun r =>
        if r.id == rec.id then
          { r with refreshToken := newTok, expiresAt := e }
        else r)), r2.refreshToken ≠ oldTok := by
  obtain ⟨hmem, htok, -, -⟩ := findVisible_spec hfv
  intro r2 hr2
  rcases List.mem_map.mp hr2 with ⟨r, hr, rfl⟩
  by_cases hid : (r.id == rec.id) = true
  · rw [if_pos hid]
    exact hne
  · rw [if_neg hid]
    intro hbad
    have hreq : r = rec :=
      eq_of_mem_of_pairwise_key RefreshTokenRecord.refreshToken hwf hr hmem
        (by rw [hbad, htok])
    rw [hreq] at hid
    exact hid (beq_self_eq_true rec.id)

/-- C1.  Single-use rotation in `authenticationService.Refresh` together
with `recordRepository.Rotate`: when the presented token's hash resolves
to a live row (live owner, row not tombstoned, not yet expired) and the
freshly generated replacement secret has a collision-free hash, the call
succeeds and returns a refresh token distinct from the presented one, after
the call no physical row carries the old hash any more, and every
subsequent `Refresh` of the old token fails with `ErrInvalidRefreshToken`
leaving the store unchanged.  The pairwise hypothesis is the `refreshToken`
unique index of the records table. -/
theorem c1_single_use_rotation
    {macA : String → AccessClaims → String} {hash : String → String}
    {cfg : AuthConfig} {now : Time} {rawNew : String} {st : Store}
    {t : String} {rec : RefreshTokenRecord}
    (hwf : st.records.Pairwise (fun a b => a.refreshToken ≠ b.refreshToken))
    (hread : ReadByToken st (hash t) = .ok rec)
    (hexp : ¬ rec.expiresAt < now)
    (hfresh : ∀ r ∈ st.records, r.refreshToken ≠ hash rawNew) :
    ∃ access st2,
      Refresh macA hash cfg now rawNew st t = (.ok (access, rawNew), st2) ∧
      rawNew ≠ t ∧
      (∀ r ∈ st2.records, r.refreshToken ≠ hash t) ∧
      (∀ now2 raw2,
        Refresh macA hash cfg now2 raw2 st2 t =
          (.error .errInvalidRefreshToken, st2)) := by
  have hfv : findVisible st (hash t) = some rec := ReadByToken_eq_ok_iff.mp hread
  obtain ⟨hmem, htok, -, hany⟩ := findVisible_spec hfv
  have hneq : hash rawNew ≠ hash t := by
    intro hb
    exact hfresh rec hmem (htok.trans hb.symm)
  obtain ⟨u, hu⟩ := ReadPersonByID_isOk_of_any hany
  have hrot := Rotate_eq_ok (e := now + cfg.refreshTokenTTL) hfv hfresh
  refine ⟨IssueAccessToken macA (toString u.id) u.role cfg.jwtSecret
      cfg.accessTokenTTL now,
    { st with records := st.records.map (fun r =>
        if r.id == rec.id then
          { r with refreshToken := hash rawNew,
                   expiresAt := now + cfg.refreshTokenTTL }
        else r) }, ?_, ?_, ?_, ?_⟩
  · unfold Refresh ReadByToken
    simp only [hfv, if_neg hexp, hu, hrot]
  · intro hb
    exact hneq (by rw [hb])
  · exact Rotate_ok_no_old_token hwf hfv hneq
  · intro now2 raw2
    exact Refresh_of_no_row (Rotate_ok_no_old_token hwf hfv hneq)

/-- Witness for C1: concrete store with one live, unexpired session row;
the rotation succeeds, retires the old hash, and the replay is rejected. -/
theorem c1_single_use_rotation_witness :
    ∃ access st2,
      Refresh (fun s _ => s) (fun s => String.append "H:" s)
          ⟨"sec", 900, 86400⟩ 50 "n"
          ⟨[⟨1, "a@x.com", "bh", 0, "user", none⟩],
           [⟨1, 1, "H:t", 100, none⟩], 2⟩ "t" =
        (.ok (access, "n"), st2) ∧
      "n" ≠ "t" ∧
      (∀ r ∈ st2.records, r.refreshToken ≠ String.append "H:" "t") ∧
      (∀ now2 raw2,
        Refresh (fun s _ => s) (fun s => String.append "H:" s)
            ⟨"sec", 900, 86400⟩ now2 raw2 st2 "t" =
          (.error .errInvalidRefreshToken, st2)) :=
  c1_single_use_rotation (by simp) (by rfl) (by decide) (by decide)

/-- A delete whose hash resolves succeeds and tombstones exactly the
visible matching rows. -/
theorem DeleteByToken_eq_ok {st : Store} {tok : String} {now : Time}
    {rec : RefreshTokenRecord} (hfv : findVisible st tok = some rec) :
    DeleteByToken st tok now =
      .ok { st with records := st.records.map (fun r =>
              if r.refreshToken == tok && recVisible st r then
                { r with deletedAt := some now }
              else r) } := by
  have hfv2 : st.records.find?
      (fun r => r.refreshToken == tok && recVisible st r) = some rec := hfv
  have hp := List.find?_some hfv2
  have hm := List.mem_of_find?_eq_some hfv2
  have hany : st.records.any
      (fun r => r.refreshToken == tok && recVisible st r) = true :=
    List.any_eq_true.mpr ⟨rec, hm, hp⟩
  unfold DeleteByToken
  simp [hany]

/-- After a delete by hash, the hash no longer resolves to any visible
row: the matching rows were tombstoned and the untouched rows either carry
another hash or were invisible already. -/
theorem findVisible_after_delete (st : Store) (tok : String) (now : Time) :
    findVisible
      { st with records := st.records.map (fun r =>
          if r.refreshToken == tok && recVisible st r then
            { r with deletedAt := some now }
          else r) } tok = none := by
  refine List.find?_eq_none.mpr (fun r2 hr2 => ?_)
  rcases List.mem_map.mp hr2 with ⟨r, hr, rfl⟩
  by_cases hc : (r.refreshToken == tok && recVisible st r) = true
  · rw [if_pos hc]
    simp [recVisible]
  · rw [if_neg hc]
    simp only [Bool.and_eq_true, not_and] at hc
    intro hbad
    rw [Bool.and_eq_true] at hbad
    exact absurd (by simpa [recVisible] using hbad.2) (hc hbad.1)

/-- C5 (amended).  `authenticationService.Refresh` on a row whose own
expiry has passed rejects the token with `ErrInvalidRefreshToken`; the
row, however, is SOFT-deleted, not hard-deleted: `RefreshTokenRecord`
embeds `gorm.Model`, so `DeleteByToken`'s gorm `Delete` only sets the
`DeletedAt` tombstone.  The row therefore remains physically in the table
but is excluded from every lookup, and re-presenting the same token still
fails with `ErrInvalidRefreshToken`. -/
theorem c5_expired_row_rejected_and_tombstoned
    {macA : String → AccessClaims → String} {hash : String → String}
    {cfg : AuthConfig} {now : Time} {rawNew : String} {st : Store}
    {t : String} {rec : RefreshTokenRecord}
    (hread : ReadByToken st (hash t) = .ok rec)
    (hexp : rec.expiresAt < now) :
    ∃ st2,
      Refresh macA hash cfg now rawNew st t =
        (.error .errInvalidRefreshToken, st2) ∧
      (∃ r ∈ st2.records, r.refreshToken = hash t ∧ r.deletedAt = some now) ∧
      findVisible st2 (hash t) = none ∧
      (∀ now2 raw2,
        Refresh macA hash cfg now2 raw2 st2 t =
          (.error .errInvalidRefreshToken, st2)) := by
  have hfv : findVisible st (hash t) = some rec := ReadByToken_eq_ok_iff.mp hread
  have hfv2 : st.records.find?
      (fun r => r.refreshToken == hash t && recVisible st r) = some rec := hfv
  have hpred := List.find?_some hfv2
  have hmem := List.mem_of_find?_eq_some hfv2
  have htok : rec.refreshToken = hash t := by
    have h2 := hpred
    simp only [Bool.and_eq_true, beq_iff_eq] at h2
    exact h2.1
  refine ⟨{ st with records := st.records.map (fun r =>
      if r.refreshToken == hash t && recVisible st r then
        { r with deletedAt := some now }
      else r) }, ?_, ?_, ?_, ?_⟩
  · unfold Refresh ReadByToken
    simp only [hfv, if_pos hexp, DeleteByToken_eq_ok hfv, orKeep]
  · exact ⟨{ rec with deletedAt := some now },
      List.mem_map.mpr ⟨rec, hmem, by rw [if_pos hpred]⟩, htok, rfl⟩
  · exact findVisible_after_delete st (hash t) now
  · intro now2 raw2
    exact Refresh_of_findVisible_none (findVisible_after_delete st (hash t) now)

/-- Witness for the amended C5 at a concrete expired row. -/
theorem c5_expired_row_rejected_and_tombstoned_witness :
    ∃ st2,
      Refresh (fun s _ => s) (fun s => String.append "H:" s)
          ⟨"sec", 900, 86400⟩ 200 "n"
          ⟨[⟨1, "a@x.com", "bh", 0, "user", none⟩],
           [⟨1, 1, "H:t", 100, none⟩], 2⟩ "t" =
        (.error .errInvalidRefreshToken, st2) ∧
      (∃ r ∈ st2.records,
        r.refreshToken = String.append "H:" "t" ∧ r.deletedAt = some 200) ∧
      findVisible st2 (String.append "H:" "t") = none ∧
      (∀ now2 raw2,
        Refresh (fun s _ => s) (fun s => String.append "H:" s)
            ⟨"sec", 900, 86400⟩ now2 raw2 st2 "t" =
          (.error .errInvalidRefreshToken, st2)) :=
  c5_expired_row_rejected_and_tombstoned (by rfl) (by decide)

/-- Counterexample to C5 as stated: at a concrete expired row, `Refresh`
does reject with `ErrInvalidRefreshToken`, but afterward the row still
exists in the records table (with a tombstone) — it is not hard-deleted,
so "that row no longer exists in the store" is false of the code. -/
theorem c5_counterexample :
    (Refresh (fun s _ => s) (fun s => String.append "H:" s)
        ⟨"sec", 900, 86400⟩ 200 "n"
        ⟨[⟨1, "a@x.com", "bh", 0, "user", none⟩],
         [⟨1, 1, "H:t", 100, none⟩], 2⟩ "t").1 =
      .error .errInvalidRefreshToken ∧
    ((Refresh (fun s _ => s) (fun s => String.append "H:" s)
        ⟨"sec", 900, 86400⟩ 200 "n"
        ⟨[⟨1, "a@x.com", "bh", 0, "user", none⟩],
         [⟨1, 1, "H:t", 100, none⟩], 2⟩ "t").2.records.any
      (fun r => r.refreshToken == "H:t")) = true :=
  ⟨rfl, rfl⟩

/-- C8.  Credential-error merging in `authenticationService.Login`: when
no non-deleted account carries the email, and likewise when the account
exists but the bcrypt comparison rejects the supplied password, the call
fails with the very same `ErrInvalidCredentials` value (and an unchanged
store), so the two causes are indistinguishable in the returned error. -/
theorem c8_credential_error_merging
    {macA : String → AccessClaims → String} {hash : String → String}
    {bcryptMatch : String → String → Bool} {cfg : AuthConfig} {now : Time}
    {rawRefresh : String} {st : Store} {email password : String} :
    ((∀ p ∈ st.persons, p.email = email → p.deletedAt ≠ none) →
      Login macA hash bcryptMatch cfg now rawRefresh st email password =
        (.error .errInvalidCredentials, st)) ∧
    (∀ user, ReadPersonByEmail st email = .ok user →
      bcryptMatch user.password password = false →
      Login macA hash bcryptMatch cfg now rawRefresh st email password =
        (.error .errInvalidCredentials, st)) := by
  constructor
  · intro h
    have hnone : st.persons.find?
        (fun p => p.email == email && p.deletedAt.isNone) = none := by
      refine List.find?_eq_none.mpr (fun p hp => ?_)
      simp only [Bool.and_eq_true, beq_iff_eq, Option.isNone_iff_eq_none, not_and]
      intro he
      exact h p hp he
    unfold Login ReadPersonByEmail
    simp only [hnone]
  · intro user hread hbc
    unfold Login
    simp only [hread, hbc, Bool.not_false, if_true]

/-- Witness for C8: a store without the account and a store whose account
rejects the password produce the identical error value. -/
theorem c8_credential_error_merging_witness :
    Login (fun s _ => s) (fun s => s) (fun _ _ => false) ⟨"sec", 900, 86400⟩
        10 "raw" ⟨[], [], 1⟩ "a@x.com" "pw" =
      (.error .errInvalidCredentials, ⟨[], [], 1⟩) ∧
    Login (fun s _ => s) (fun s => s) (fun _ _ => false) ⟨"sec", 900, 86400⟩
        10 "raw" ⟨[⟨1, "a@x.com", "bh", 0, "user", none⟩], [], 1⟩
        "a@x.com" "pw" =
      (.error .errInvalidCredentials,
       ⟨[⟨1, "a@x.com", "bh", 0, "user", none⟩], [], 1⟩) :=
  ⟨c8_credential_error_merging.1 (by decide),
   c8_credential_error_merging.2 ⟨1, "a@x.com", "bh", 0, "user", none⟩
     (by rfl) (by rfl)⟩

/-- C7.  Round-trip and failure modes of the token codec: with a positive
ttl, a freshly issued access token parses under the issuing secret back to
its subject and role, and a freshly issued refresh token parses back to
its subject and session id; parsing fails under a secret whose HMAC tag
differs (in reality, any different secret, up to HMAC collisions), and
parsing fails once the embedded expiry has passed. -/
theorem c7_token_codec_round_trip
    {macA : String → AccessClaims → String}
    {macR : String → RefreshClaims → String}
    {subject role jti secret secret2 : String} {ttl now d : Time} :
    (0 < ttl →
      ParseAccessToken macA (IssueAccessToken macA subject role secret ttl now)
          secret now = some ⟨role, subject, now, now + ttl⟩) ∧
    (0 < ttl →
      ParseRefreshToken macR (IssueRefreshToken macR subject jti secret ttl now)
          secret now = some ⟨jti, subject, now, now + ttl⟩) ∧
    (macA secret2 ⟨role, subject, now, now + ttl⟩ ≠
        macA secret ⟨role, subject, now, now + ttl⟩ →
      ParseAccessToken macA (IssueAccessToken macA subject role secret ttl now)
          secret2 now = none) ∧
    (macR secret2 ⟨jti, subject, now, now + ttl⟩ ≠
        macR secret ⟨jti, subject, now, now + ttl⟩ →
      ParseRefreshToken macR (IssueRefreshToken macR subject jti secret ttl now)
          secret2 now = none) ∧
    (ttl ≤ d →
      ParseAccessToken macA (IssueAccessToken macA subject role secret ttl now)
          secret (now + d) = none) ∧
    (ttl ≤ d →
      ParseRefreshToken macR (IssueRefreshToken macR subject jti secret ttl now)
          secret (now + d) = none) := by
  refine ⟨?_, ?_, ?_, ?_, ?_, ?_⟩
  · intro h
    have hlt : now < now + ttl := by linarith
    simp [ParseAccessToken, IssueAccessToken, hlt]
  · intro h
    have hlt : now < now + ttl := by linarith
    simp [ParseRefreshToken, IssueRefreshToken, hlt]
  · intro h
    simp [ParseAccessToken, IssueAccessToken, Ne.symm h]
  · intro h
    simp [ParseRefreshToken, IssueRefreshToken, Ne.symm h]
  · intro h
    have hlt : ¬ now + d < now + ttl := by linarith
    simp [ParseAccessToken, IssueAccessToken, hlt]
  · intro h
    have hlt : ¬ now + d < now + ttl := by linarith
    simp [ParseRefreshToken, IssueRefreshToken, hlt]

/-- Witness for C7 at concrete data: issue at time 0 with ttl 100 under
secret "s1"; parse back at time 0, fail under "s2", fail at time 100. -/
theorem c7_token_codec_round_trip_witness :
    ParseAccessToken (fun s _ => s)
        (IssueAccessToken (fun s _ => s) "7" "admin" "s1" 100 0) "s1" 0 =
      some ⟨"admin", "7", 0, 100⟩ ∧
    ParseRefreshToken (fun s _ => s)
        (IssueRefreshToken (fun s _ => s) "7" "j1" "s1" 100 0) "s1" 0 =
      some ⟨"j1", "7", 0, 100⟩ ∧
    ParseAccessToken (fun s _ => s)
        (IssueAccessToken (fun s _ => s) "7" "admin" "s1" 100 0) "s2" 0 =
      none ∧
    ParseRefreshToken (fun s _ => s)
        (IssueRefreshToken (fun s _ => s) "7" "j1" "s1" 100 0) "s2" 0 =
      none ∧
    ParseAccessToken (fun s _ => s)
        (IssueAccessToken (fun s _ => s) "7" "admin" "s1" 100 0) "s1" 100 =
      none ∧
    ParseRefreshToken (fun s _ => s)
        (IssueRefreshToken (fun s _ => s) "7" "j1" "s1" 100 0) "s1" 100 =
      none :=
  ⟨(@c7_token_codec_round_trip (fun s _ => s) (fun s _ => s)
      "7" "admin" "j1" "s1" "s2" 100 0 100).1 (by decide),
   (@c7_token_codec_round_trip (fun s _ => s) (fun s _ => s)
      "7" "admin" "j1" "s1" "s2" 100 0 100).2.1 (by decide),
   (@c7_token_codec_round_trip (fun s _ => s) (fun s _ => s)
      "7" "admin" "j1" "s1" "s2" 100 0 100).2.2.1 (by decide),
   (@c7_token_codec_round_trip (fun s _ => s) (fun s _ => s)
      "7" "admin" "j1" "s1" "s2" 100 0 100).2.2.2.1 (by decide),
   (@c7_token_codec_round_trip (fun s _ => s) (fun s _ => s)
      "7" "admin" "j1" "s1" "s2" 100 0 100).2.2.2.2.1 (by decide),
   (@c7_token_codec_round_trip (fun s _ => s) (fun s _ => s)
      "7" "admin" "j1" "s1" "s2" 100 0 100).2.2.2.2.2 (by decide)⟩

/-- C10.  `person.CheckPassword` accepts exactly the passwords whose Go
length (UTF-8 bytes) is at least 8 and that contain an ASCII letter, an
ASCII digit, and a character of the special set; consequently a password
made only of ASCII letters and digits — all the `alphanum` binding rule of
the HTTP layer can admit — is always rejected by the service-side
validator. -/
theorem c10_check_password (password : String) :
    (CheckPassword password = none ↔
      (8 ≤ goLen password ∧
       (∃ c ∈ password.data, isGoLetter c = true) ∧
       (∃ c ∈ password.data, isGoDigit c = true) ∧
       (∃ c ∈ password.data, c ∈ specialCharacters))) ∧
    ((∀ c ∈ password.data, isGoLetter c = true ∨ isGoDigit c = true) →
      CheckPassword password ≠ none) := by
  have hspec : ∀ c ∈ specialCharacters,
      isGoLetter c = false ∧ isGoDigit c = false := by decide
  have hsp : checkSpecialCharacter password = true ↔
      ∃ c ∈ password.data, c ∈ specialCharacters := by
    unfold checkSpecialCharacter containsRune
    constructor
    · intro hs
      rcases List.any_eq_true.mp hs with ⟨c, hc, hcr⟩
      rcases List.any_eq_true.mp hcr with ⟨x, hx, hxc⟩
      rw [beq_iff_eq] at hxc
      exact ⟨c, hc, hxc ▸ hx⟩
    · rintro ⟨c, hc, hcs⟩
      exact List.any_eq_true.mpr
        ⟨c, hc, List.any_eq_true.mpr ⟨c, hcs, by simp⟩⟩
  have h1 : CheckPassword password = none ↔
      (checkLength password = true ∧ checkAlphanumeric password = true ∧
       checkSpecialCharacter password = true) := by
    unfold CheckPassword
    cases hl : checkLength password <;>
      cases ha : checkAlphanumeric password <;>
        cases hs : checkSpecialCharacter password <;> simp
  constructor
  · rw [h1]
    constructor
    · rintro ⟨hl, ha, hs⟩
      have ha2 := (Bool.and_eq_true _ _).mp ha
      exact ⟨by simpa [checkLength] using hl,
        List.any_eq_true.mp ha2.1, List.any_eq_true.mp ha2.2, hsp.mp hs⟩
    · rintro ⟨hl, ha1, ha2, hs⟩
      refine ⟨by simpa [checkLength] using hl, ?_, hsp.mpr hs⟩
      exact (Bool.and_eq_true _ _).mpr
        ⟨List.any_eq_true.mpr ha1, List.any_eq_true.mpr ha2⟩
  · intro hall hnone
    obtain ⟨-, -, hs⟩ := h1.mp hnone
    rcases hsp.mp hs with ⟨c, hc, hcs⟩
    rcases hall c hc with h2 | h2
    · have hf := (hspec c hcs).1
      rw [hf] at h2
      exact Bool.false_ne_true h2
    · have hf := (hspec c hcs).2
      rw [hf] at h2
      exact Bool.false_ne_true h2

/-- Witness for C10: the all-alphanumeric password "Abcdefg1" — accepted
by the binding rule `min=8,alphanum` — is rejected by `CheckPassword`. -/
theorem c10_check_password_witness : CheckPassword "Abcdefg1" ≠ none :=
  (c10_check_password "Abcdefg1").2 (by decide)

/-- An insert whose hash is fresh for the whole table succeeds and appends
exactly one live row. -/
theorem Create_eq_ok (st : Store) (pid : Nat) (tok : String) (e : Time)
    (hfresh : ∀ r ∈ st.records, r.refreshToken ≠ tok) :
    Create st pid tok e =
      .ok { st with
            records := st.records ++ [⟨st.nextID, pid, tok, e, none⟩],
            nextID := st.nextID + 1 } := by
  have hany : st.records.any (fun r => r.refreshToken == tok) = false := by
    rw [Bool.eq_false_iff]
    intro hx
    rcases List.any_eq_true.mp hx with ⟨r, hr, hpr⟩
    rw [beq_iff_eq] at hpr
    exact hfresh r hr hpr
  unfold Create
  simp [hany]

/-- An insert whose hash already sits in some physical row (live or
tombstoned) trips the unique index. -/
theorem Create_eq_dup (st : Store) (pid : Nat) (tok : String) (e : Time)
    (hcol : ∃ r ∈ st.records, r.refreshToken = tok) :
    Create st pid tok e = .error .errDuplicateKey := by
  have hany : st.records.any (fun r => r.refreshToken == tok) = true := by
    rcases hcol with ⟨r, hr, hpr⟩
    exact List.any_eq_true.mpr ⟨r, hr, by rw [beq_iff_eq]; exact hpr⟩
  unfold Create
  simp [hany]

/-- A successful insert appends exactly one live row. -/
theorem Create_ok_records {st : Store} {pid : Nat} {tok : String} {e : Time}
    {st2 : Store} (h : Create st pid tok e = .ok st2) :
    st2.records = st.records ++ [⟨st.nextID, pid, tok, e, none⟩] := by
  unfold Create at h
  by_cases hc : (st.records.any (fun r => r.refreshToken == tok)) = true
  · rw [if_pos hc] at h
    exact Except.noConfusion h
  · rw [if_neg hc] at h
    cases h
    rfl

/-- The session id handed back by the persistence loop always has its hash
in a live row of the store the loop returns. -/
theorem persistRefreshRow_ok_spec {hash : String → String} {cfg : TokenConfig}
    {now : Time} {pid : Nat} :
    ∀ (jtis : List String) (st : Store) (j : String) (st2 : Store),
      persistRefreshRow hash cfg now pid jtis st = .ok (j, st2) →
      ∃ rec ∈ st2.records, rec.refreshToken = hash j ∧ rec.deletedAt = none := by
  intro jtis
  induction jtis with
  | nil =>
      intro st j st2 h
      exact Except.noConfusion h
  | cons j1 rest ih =>
      intro st j st2 h
      unfold persistRefreshRow at h
      cases hc : Create st pid (hash j1) (now + cfg.refreshTokenTTL) with
      | ok st3 =>
          rw [hc] at h
          cases h
          refine ⟨⟨st.nextID, pid, hash j1, now + cfg.refreshTokenTTL, none⟩,
            ?_, rfl, rfl⟩
          rw [Create_ok_records hc]
          exact List.mem_append_right _ (List.mem_singleton.mpr rfl)
      | error e =>
          cases e with
          | errDuplicateKey =>
              rw [hc] at h
              exact ih st j st2 h
          | errRecordNotFoundByGivenToken =>
              rw [hc] at h
              exact Except.noConfusion h
          | errUnresponsiveDatabase =>
              rw [hc] at h
              exact Except.noConfusion h

/-- C2 (spec-modelled).  The later-revision `Refresh` and `Logout` verify
the signature and embedded expiry of the presented refresh token before
anything else: whenever that verification fails (tampered signature or
passed expiry — every token of the model is structurally well-formed, and
a malformed wire string fails the same parse in the code), both calls
fail with `ErrInvalidRefreshToken` and return the store untouched, so no
store lookup succeeds on the token. -/
theorem c2_verify_before_lookup
    {macA : String → AccessClaims → String}
    {macR : String → RefreshClaims → String} {hash : String → String}
    {cfg : TokenConfig} {now : Time} {newJti : String} {st : Store}
    {tok : SignedToken RefreshClaims}
    (hparse : ParseRefreshToken macR tok cfg.refreshTokenSecret now = none) :
    RefreshV2 macA macR hash cfg now newJti st tok =
      (.error .errInvalidRefreshToken, st) ∧
    LogoutV2 macR hash cfg now st tok = (.error .errInvalidRefreshToken, st) := by
  constructor
  · unfold RefreshV2
    simp only [hparse]
  · unfold LogoutV2
    simp only [hparse]

/-- Witness for C2: a token whose signature tag does not verify under the
refresh secret is rejected by both calls with the store unchanged. -/
theorem c2_verify_before_lookup_witness :
    RefreshV2 (fun s _ => s) (fun s _ => s) (fun s => s)
        ⟨"A", "R", 900, 86400⟩ 0 "j2" ⟨[], [], 1⟩ ⟨⟨"j1", "7", 0, 100⟩, "X"⟩ =
      (.error .errInvalidRefreshToken, ⟨[], [], 1⟩) ∧
    LogoutV2 (fun s _ => s) (fun s => s) ⟨"A", "R", 900, 86400⟩ 0
        ⟨[], [], 1⟩ ⟨⟨"j1", "7", 0, 100⟩, "X"⟩ =
      (.error .errInvalidRefreshToken, ⟨[], [], 1⟩) :=
  c2_verify_before_lookup (by decide)

/-- C3 (spec-modelled).  Secret separation in the later-revision `Login`:
a successful call returns the refresh credential
`IssueRefreshToken(subject, jti, refreshSecret, ttl)` — a signed token
carrying the opaque session id `j` — and that token verifies under the
refresh secret while failing to verify under the access secret whenever
the two secrets' HMAC tags differ on its claims (as distinct secrets do,
up to HMAC collisions). -/
theorem c3_secret_separation
    {macA : String → AccessClaims → String}
    {macR : String → RefreshClaims → String} {hash : String → String}
    {bcryptMatch : String → String → Bool} {cfg : TokenConfig} {now : Time}
    {j : String} {rest : List String} {st : Store} {email password : String}
    {user : Person}
    (hperson : ReadPersonByEmail st email = .ok user)
    (hbc : bcryptMatch user.password password = true)
    (hfresh : ∀ r ∈ st.records, r.refreshToken ≠ hash j) :
    ∃ a st2,
      LoginV2 macA macR hash bcryptMatch cfg now (j :: rest) st email password =
        (.ok (a, IssueRefreshToken macR (toString user.id) j
          cfg.refreshTokenSecret cfg.refreshTokenTTL now), st2) ∧
      (0 < cfg.refreshTokenTTL →
        ParseRefreshToken macR
            (IssueRefreshToken macR (toString user.id) j
              cfg.refreshTokenSecret cfg.refreshTokenTTL now)
            cfg.refreshTokenSecret now =
          some ⟨j, toString user.id, now, now + cfg.refreshTokenTTL⟩) ∧
      (macR cfg.accessTokenSecret
          ⟨j, toString user.id, now, now + cfg.refreshTokenTTL⟩ ≠
        macR cfg.refreshTokenSecret
          ⟨j, toString user.id, now, now + cfg.refreshTokenTTL⟩ →
        ParseRefreshToken macR
            (IssueRefreshToken macR (toString user.id) j
              cfg.refreshTokenSecret cfg.refreshTokenTTL now)
            cfg.accessTokenSecret now = none) := by
  have hok := Create_eq_ok st user.id (hash j) (now + cfg.refreshTokenTTL) hfresh
  refine ⟨IssueAccessToken macA (toString user.id) user.role
      cfg.accessTokenSecret cfg.accessTokenTTL now,
    { st with
      records := st.records ++
        [⟨st.nextID, user.id, hash j, now + cfg.refreshTokenTTL, none⟩],
      nextID := st.nextID + 1 }, ?_, ?_, ?_⟩
  · unfold LoginV2 persistRefreshRow
    simp only [hperson, hbc, Bool.not_true, Bool.false_eq_true, if_false, hok]
  · intro h
    have hlt : now < now + cfg.refreshTokenTTL := by linarith
    simp [ParseRefreshToken, IssueRefreshToken, hlt]
  · intro h
    simp [ParseRefreshToken, IssueRefreshToken, Ne.symm h]

/-- Witness for C3 at a concrete account and store. -/
theorem c3_secret_separation_witness :
    ∃ a st2,
      LoginV2 (fun s _ => s) (fun s _ => s) (fun s => s) (fun _ _ => true)
          ⟨"A", "R", 900, 86400⟩ 0 ["j1"]
          ⟨[⟨7, "a@x.com", "bh", 0, "user", none⟩], [], 1⟩ "a@x.com" "pw" =
        (.ok (a, IssueRefreshToken (fun s _ => s) (toString 7) "j1" "R" 86400 0),
         st2) ∧
      (0 < (86400 : Time) →
        ParseRefreshToken (fun s _ => s)
            (IssueRefreshToken (fun s _ => s) (toString 7) "j1" "R" 86400 0)
            "R" 0 = some ⟨"j1", toString 7, 0, 0 + 86400⟩) ∧
      ((fun (s : String) (_ : RefreshClaims) => s) "A"
          ⟨"j1", toString 7, 0, 0 + 86400⟩ ≠
        (fun (s : String) (_ : RefreshClaims) => s) "R"
          ⟨"j1", toString 7, 0, 0 + 86400⟩ →
        ParseRefreshToken (fun s _ => s)
            (IssueRefreshToken (fun s _ => s) (toString 7) "j1" "R" 86400 0)
            "A" 0 = none) :=
  @c3_secret_separation (fun s _ => s) (fun s _ => s) (fun s => s)
    (fun _ _ => true) ⟨"A", "R", 900, 86400⟩ 0 "j1" []
    ⟨[⟨7, "a@x.com", "bh", 0, "user", none⟩], [], 1⟩ "a@x.com" "pw"
    ⟨7, "a@x.com", "bh", 0, "user", none⟩ (by rfl) (by rfl) (by decide)

/-- C4 (spec-modelled).  Collision retry in the later-revision `Login`:
(a) in every outcome, a successful call only hands out a refresh token
whose session-id hash was actually persisted as a live row of the returned
store; (b) when the first generated session id collides with an existing
row's hash and the second is fresh, the insert is retried and the call
succeeds with a token carrying the second id, persisted. -/
theorem c4_collision_retry
    {macA : String → AccessClaims → String}
    {macR : String → RefreshClaims → String} {hash : String → String}
    {bcryptMatch : String → String → Bool} {cfg : TokenConfig} {now : Time}
    {email password : String} :
    (∀ (jtis : List String) (st : Store) (a : SignedToken AccessClaims)
        (rtok : SignedToken RefreshClaims) (st2 : Store),
      LoginV2 macA macR hash bcryptMatch cfg now jtis st email password =
        (.ok (a, rtok), st2) →
      ∃ rec ∈ st2.records,
        rec.refreshToken = hash rtok.claims.id ∧ rec.deletedAt = none) ∧
    (∀ (j1 j2 : String) (rest : List String) (st : Store) (user : Person),
      ReadPersonByEmail st email = .ok user →
      bcryptMatch user.password password = true →
      (∃ r ∈ st.records, r.refreshToken = hash j1) →
      (∀ r ∈ st.records, r.refreshToken ≠ hash j2) →
      ∃ a st2,
        LoginV2 macA macR hash bcryptMatch cfg now (j1 :: j2 :: rest) st
            email password =
          (.ok (a, IssueRefreshToken macR (toString user.id) j2
            cfg.refreshTokenSecret cfg.refreshTokenTTL now), st2) ∧
        ∃ rec ∈ st2.records,
          rec.refreshToken = hash j2 ∧ rec.deletedAt = none) := by
  constructor
  · intro jtis st a rtok st2 h
    unfold LoginV2 at h
    cases hre : ReadPersonByEmail st email with
    | error e =>
        cases e
        simp [hre] at h
    | ok user =>
        simp only [hre] at h
        cases hb : bcryptMatch user.password password with
        | false =>
            simp [hb] at h
        | true =>
            cases hp : persistRefreshRow hash cfg now user.id jtis st with
            | error e =>
                simp [hb, hp] at h
            | ok pr =>
                obtain ⟨jti, st3⟩ := pr
                simp only [hb, hp, Bool.not_true, Bool.false_eq_true, if_false,
                  Prod.mk.injEq, Except.ok.injEq] at h
                obtain ⟨⟨-, hr⟩, hs⟩ := h
                rw [← hr, ← hs]
                exact persistRefreshRow_ok_spec jtis st jti st3 hp
  · intro j1 j2 rest st user hre hbc hcol hfresh
    have hdup := Create_eq_dup st user.id (hash j1)
      (now + cfg.refreshTokenTTL) hcol
    have hok := Create_eq_ok st user.id (hash j2)
      (now + cfg.refreshTokenTTL) hfresh
    have hpersist : persistRefreshRow hash cfg now user.id (j1 :: j2 :: rest) st =
        .ok (j2, { st with
          records := st.records ++
            [⟨st.nextID, user.id, hash j2, now + cfg.refreshTokenTTL, none⟩],
          nextID := st.nextID + 1 }) := by
      simp only [persistRefreshRow, hdup, hok]
    refine ⟨IssueAccessToken macA (toString user.id) user.role
        cfg.accessTokenSecret cfg.accessTokenTTL now,
      { st with
        records := st.records ++
          [⟨st.nextID, user.id, hash j2, now + cfg.refreshTokenTTL, none⟩],
        nextID := st.nextID + 1 }, ?_, ?_⟩
    · unfold LoginV2
      simp only [hre, hbc, Bool.not_true, Bool.false_eq_true, if_false, hpersist]
    · refine ⟨⟨st.nextID, user.id, hash j2, now + cfg.refreshTokenTTL, none⟩,
        ?_, rfl, rfl⟩
      exact List.mem_append_right _ (List.mem_singleton.mpr rfl)

/-- Witness for C4: a store already holding the hash of the first id; the
call retries with the second id and persists it. -/
theorem c4_collision_retry_witness :
    ∃ a st2,
      LoginV2 (fun s _ => s) (fun s _ => s) (fun s => String.append "H:" s)
          (fun _ _ => true) ⟨"A", "R", 900, 86400⟩ 0 ["j1", "j2"]
          ⟨[⟨7, "a@x.com", "bh", 0, "user", none⟩],
           [⟨1, 7, "H:j1", 500, none⟩], 2⟩ "a@x.com" "pw" =
        (.ok (a, IssueRefreshToken (fun s _ => s) (toString 7) "j2" "R" 86400 0),
         st2) ∧
      ∃ rec ∈ st2.records,
        rec.refreshToken = String.append "H:" "j2" ∧ rec.deletedAt = none :=
  c4_collision_retry.2 "j1" "j2" [] _ ⟨7, "a@x.com", "bh", 0, "user", none⟩
    (by rfl) (by rfl) (by decide) (by decide)

/-- A successful `Login` hands back exactly the generated raw secret and
appends one row holding its hash. -/
theorem Login_ok_spec {macA : String → AccessClaims → String}
    {hash : String → String} {bcryptMatch : String → String → Bool}
    {cfg : AuthConfig} {now : Time} {rawRefresh email password : String}
    {st : Store} {a : SignedToken AccessClaims} {r : String} {st2 : Store}
    (h : Login macA hash bcryptMatch cfg now rawRefresh st email password =
      (.ok (a, r), st2)) :
    r = rawRefresh ∧ ∃ pid, st2.records =
      st.records ++
        [⟨st.nextID, pid, hash rawRefresh, now + cfg.refreshTokenTTL, none⟩] := by
  unfold Login at h
  cases hre : ReadPersonByEmail st email with
  | error e =>
      cases e
      simp [hre] at h
  | ok user =>
      simp only [hre] at h
      cases hb : bcryptMatch user.password password with
      | false => simp [hb] at h
      | true =>
          cases hcr : Create st user.id (hash rawRefresh)
              (now + cfg.refreshTokenTTL) with
          | error e => simp [hb, hcr] at h
          | ok st3 =>
              simp only [hb, hcr, Bool.not_true, Bool.false_eq_true, if_false,
                Prod.mk.injEq, Except.ok.injEq] at h
              obtain ⟨⟨-, hr⟩, hs⟩ := h
              exact ⟨hr.symm, user.id, by rw [← hs]; exact Create_ok_records hcr⟩

/-- Every error path of `Login` leaves the store unchanged. -/
theorem Login_err_state {macA : String → AccessClaims → String}
    {hash : String → String} {bcryptMatch : String → String → Bool}
    {cfg : AuthConfig} {now : Time} {rawRefresh email password : String}
    {st : Store} {e : AuthError} {st2 : Store}
    (h : Login macA hash bcryptMatch cfg now rawRefresh st email password =
      (.error e, st2)) : st2 = st := by
  unfold Login at h
  cases hre : ReadPersonByEmail st email with
  | error e2 =>
      cases e2
      simp only [hre, Prod.mk.injEq] at h
      exact h.2.symm
  | ok user =>
      simp only [hre] at h
      cases hb : bcryptMatch user.password password with
      | false =>
          simp only [hb, Bool.not_false, if_true, Prod.mk.injEq] at h
          exact h.2.symm
      | true =>
          cases hcr : Create st user.id (hash rawRefresh)
              (now + cfg.refreshTokenTTL) with
          | error e3 =>
              simp only [hb, hcr, Bool.not_true, Bool.false_eq_true, if_false,
                Prod.mk.injEq] at h
              exact h.2.symm
          | ok st3 =>
              simp [hb, hcr] at h

/-- Surviving rows of a successful rotation carry either the new hash or a
hash some row already had. -/
theorem Rotate_ok_tokens {st : Store} {oldTok newTok : String} {e : Time}
    {st2 : Store} (h : Rotate st oldTok newTok e = .ok st2) :
    ∀ r2 ∈ st2.records, r2.refreshToken = newTok ∨
      ∃ r0 ∈ st.records, r2.refreshToken = r0.refreshToken := by
  unfold Rotate at h
  cases hfv : findVisible st oldTok with
  | none =>
      simp [hfv] at h
  | some rec =>
      simp only [hfv] at h
      by_cases hc : (st.records.any
          (fun r => !(r.id == rec.id) && r.refreshToken == newTok)) = true
      · rw [if_pos hc] at h
        exact Except.noConfusion h
      · rw [if_neg hc] at h
        cases h
        intro r2 hr2
        rcases List.mem_map.mp hr2 with ⟨r0, hr0, rfl⟩
        by_cases hid : (r0.id == rec.id) = true
        · rw [if_pos hid]
          exact Or.inl rfl
        · rw [if_neg hid]
          exact Or.inr ⟨r0, hr0, rfl⟩

/-- A soft delete never changes any row's stored hash. -/
theorem DeleteByToken_tokens {st : Store} {tok : String} {now : Time} :
    ∀ r2 ∈ (orKeep (DeleteByToken st tok now) st).records,
      ∃ r0 ∈ st.records, r2.refreshToken = r0.refreshToken := by
  unfold DeleteByToken orKeep
  by_cases hc : (st.records.any
      (fun r => r.refreshToken == tok && recVisible st r)) = true
  · rw [if_pos hc]
    intro r2 hr2
    rcases List.mem_map.mp hr2 with ⟨r0, hr0, rfl⟩
    by_cases hm : (r0.refreshToken == tok && recVisible st r0) = true
    · rw [if_pos hm]
      exact ⟨r0, hr0, rfl⟩
    · rw [if_neg hm]
      exact ⟨r0, hr0, rfl⟩
  · rw [if_neg hc]
    intro r2 hr2
    exact ⟨r2, hr2, rfl⟩

/-- A successful `Refresh` hands back exactly the generated raw secret,
and every surviving row carries the new hash or a hash that already
existed. -/
theorem Refresh_ok_spec {macA : String → AccessClaims → String}
    {hash : String → String} {cfg : AuthConfig} {now : Time}
    {rawNew oldTok : String} {st : Store} {a : SignedToken AccessClaims}
    {r : String} {st2 : Store}
    (h : Refresh macA hash cfg now rawNew st oldTok = (.ok (a, r), st2)) :
    r = rawNew ∧ ∀ r2 ∈ st2.records, r2.refreshToken = hash rawNew ∨
      ∃ r0 ∈ st.records, r2.refreshToken = r0.refreshToken := by
  unfold Refresh at h
  cases hrd : ReadByToken st (hash oldTok) with
  | error e =>
      cases e <;> simp [hrd] at h
  | ok rec =>
      simp only [hrd] at h
      by_cases hexp : rec.expiresAt < now
      · simp [if_pos hexp] at h
      · simp only [if_neg hexp] at h
        cases hp : ReadPersonByID st rec.personID with
        | error e =>
            cases e
            simp [hp] at h
        | ok user =>
            simp only [hp] at h
            cases hr : Rotate st (hash oldTok) (hash rawNew)
                (now + cfg.refreshTokenTTL) with
            | error e => cases e <;> simp [hr] at h
            | ok st3 =>
                simp only [hr, Prod.mk.injEq, Except.ok.injEq] at h
                obtain ⟨⟨-, hr2⟩, hs⟩ := h
                refine ⟨hr2.symm, ?_⟩
                rw [← hs]
                exact Rotate_ok_tokens hr

/-- Every error path of `Refresh` preserves the stored hashes (the store
is unchanged, or the expired row was merely tombstoned). -/
theorem Refresh_err_tokens {macA : String → AccessClaims → String}
    {hash : String → String} {cfg : AuthConfig} {now : Time}
    {rawNew oldTok : String} {st : Store} {e : AuthError} {st2 : Store}
    (h : Refresh macA hash cfg now rawNew st oldTok = (.error e, st2)) :
    ∀ r2 ∈ st2.records, ∃ r0 ∈ st.records, r2.refreshToken = r0.refreshToken := by
  unfold Refresh at h
  cases hrd : ReadByToken st (hash oldTok) with
  | error e2 =>
      cases e2 <;>
        · simp only [hrd, Prod.mk.injEq] at h
          rw [← h.2]
          exact fun r2 hr2 => ⟨r2, hr2, rfl⟩
  | ok rec =>
      simp only [hrd] at h
      by_cases hexp : rec.expiresAt < now
      · simp only [if_pos hexp, Prod.mk.injEq] at h
        rw [← h.2]
        exact DeleteByToken_tokens
      · simp only [if_neg hexp] at h
        cases hp : ReadPersonByID st rec.personID with
        | error e2 =>
            cases e2
            simp only [hp, Prod.mk.injEq] at h
            rw [← h.2]
            exact fun r2 hr2 => ⟨r2, hr2, rfl⟩
        | ok user =>
            simp only [hp] at h
            cases hr : Rotate st (hash oldTok) (hash rawNew)
                (now + cfg.refreshTokenTTL) with
            | error e2 =>
                cases e2 <;>
                  · simp only [hr, Prod.mk.injEq] at h
                    rw [← h.2]
                    exact fun r2 hr2 => ⟨r2, hr2, rfl⟩
            | ok st3 => simp [hr] at h

/-- Both outcomes of `Logout` preserve the stored hashes. -/
theorem Logout_tokens {hash : String → String} {now : Time} {st : Store}
    {tok : String} {res : Except AuthError Unit} {st2 : Store}
    (h : Logout hash now st tok = (res, st2)) :
    ∀ r2 ∈ st2.records, ∃ r0 ∈ st.records, r2.refreshToken = r0.refreshToken := by
  unfold Logout DeleteByToken at h
  by_cases hc : (st.records.any
      (fun r => r.refreshToken == hash tok && recVisible st r)) = true
  · simp only [hc, if_true, Prod.mk.injEq] at h
    rw [← h.2]
    intro r2 hr2
    rcases List.mem_map.mp hr2 with ⟨r0, hr0, rfl⟩
    by_cases hm : (r0.refreshToken == hash tok && recVisible st r0) = true
    · rw [if_pos hm]
      exact ⟨r0, hr0, rfl⟩
    · rw [if_neg hm]
      exact ⟨r0, hr0, rfl⟩
  · simp only [hc, Bool.false_eq_true, if_false, Prod.mk.injEq] at h
    rw [← h.2]
    exact fun r2 hr2 => ⟨r2, hr2, rfl⟩

/-- The last-seen touch never changes the records table. -/
theorem UpdateLastSeen_records (st : Store) (id : Nat) (now : Time) :
    (UpdateLastSeen st id now).records = st.records := by
  unfold UpdateLastSeen
  cases st.persons.find? (fun p => p.id == id && p.deletedAt.isNone) <;> rfl

/-- Inductive invariant of the engine: every issued raw secret is a
36-character UUID string, and every physical row's stored hash is the hash
of some issued raw secret. -/
theorem reachable_tokens {macA : String → AccessClaims → String}
    {hash : String → String} {bcryptMatch : String → String → Bool}
    {cfg : AuthConfig} {st : Store} {issued : List String}
    (h : Reachable macA hash bcryptMatch cfg st issued) :
    (∀ r ∈ issued, String.length r = 36) ∧
    (∀ rec ∈ st.records, ∃ raw ∈ issued, rec.refreshToken = hash raw) := by
  induction h with
  | init persons n =>
      exact ⟨fun r hr => absurd hr (List.not_mem_nil r),
        fun rec hrec => absurd hrec (List.not_mem_nil rec)⟩
  | loginOk st issued now rawRefresh email password a r st2 hprev hlen hcall ih =>
      obtain ⟨hr, pid, hrecs⟩ := Login_ok_spec hcall
      constructor
      · intro r2 hr2
        rcases List.mem_cons.mp hr2 with rfl | h2
        · rw [hr]
          exact hlen
        · exact ih.1 r2 h2
      · intro rec hrec
        rw [hrecs] at hrec
        rcases List.mem_append.mp hrec with h2 | h2
        · obtain ⟨raw, hraw, he⟩ := ih.2 rec h2
          exact ⟨raw, List.mem_cons_of_mem _ hraw, he⟩
        · rw [List.mem_singleton.mp h2]
          exact ⟨r, List.mem_cons_self _ _, by rw [hr]⟩
  | loginErr st issued now rawRefresh email password e st2 hprev hcall ih =>
      rw [Login_err_state hcall]
      exact ih
  | refreshOk st issued now rawNew oldTok a r st2 hprev hlen hcall ih =>
      obtain ⟨hr, htoks⟩ := Refresh_ok_spec hcall
      constructor
      · intro r2 hr2
        rcases List.mem_cons.mp hr2 with rfl | h2
        · rw [hr]
          exact hlen
        · exact ih.1 r2 h2
      · intro rec hrec
        rcases htoks rec hrec with h2 | ⟨r0, hr0, h2⟩
        · exact ⟨r, List.mem_cons_self _ _, by rw [hr, h2]⟩
        · obtain ⟨raw, hraw, he⟩ := ih.2 r0 hr0
          exact ⟨raw, List.mem_cons_of_mem _ hraw, h2.trans he⟩
  | refreshErr st issued now rawNew oldTok e st2 hprev hcall ih =>
      refine ⟨ih.1, fun rec hrec => ?_⟩
      obtain ⟨r0, hr0, h2⟩ := Refresh_err_tokens hcall rec hrec
      obtain ⟨raw, hraw, he⟩ := ih.2 r0 hr0
      exact ⟨raw, hraw, h2.trans he⟩
  | logoutStep st issued now tok res st2 hprev hcall ih =>
      refine ⟨ih.1, fun rec hrec => ?_⟩
      obtain ⟨r0, hr0, h2⟩ := Logout_tokens hcall rec hrec
      obtain ⟨raw, hraw, he⟩ := ih.2 r0 hr0
      exact ⟨raw, hraw, h2.trans he⟩
  | touch st issued id now hprev ih =>
      refine ⟨ih.1, fun rec hrec => ?_⟩
      rw [UpdateLastSeen_records] at hrec
      exact ih.2 rec hrec

/-- C6.  Hash-only persistence: in every state reachable by `Login`,
`Refresh` and `Logout` (and the background last-seen touch), every stored
`RefreshToken` field is the hash of some raw secret returned to a caller,
and — because a hex-encoded SHA-256 digest is 64 characters while every
raw secret is a 36-character UUID string — no stored field ever equals a
raw refresh token handed to a client. -/
theorem c6_hash_only_persistence {macA : String → AccessClaims → String}
    {hash : String → String} {bcryptMatch : String → String → Bool}
    {cfg : AuthConfig} {st : Store} {issued : List String}
    (hreach : Reachable macA hash bcryptMatch cfg st issued)
    (h64 : ∀ s, String.length (hash s) = 64) :
    ∀ rec ∈ st.records,
      (∃ raw ∈ issued, rec.refreshToken = hash raw) ∧
      rec.refreshToken ∉ issued := by
  intro rec hrec
  obtain ⟨hlen36, hinv⟩ := reachable_tokens hreach
  obtain ⟨raw, hraw, he⟩ := hinv rec hrec
  refine ⟨⟨raw, hraw, he⟩, ?_⟩
  intro hbad
  have h1 := hlen36 _ hbad
  rw [he] at h1
  rw [h64 raw] at h1
  exact absurd h1 (by decide)

/-- Witness for C6: one concrete `Login` from the empty records table; the
stored field is the (64-character) hash, never the 36-character raw
secret that was returned. -/
theorem c6_hash_only_persistence_witness :
    (∃ raw ∈ ["123e4567-e89b-12d3-a456-426614174000"],
      (⟨1, 1,
        "0123456789abcdef0123456789abcdef0123456789abcdef0123456789abcdef",
        5 + 86400, none⟩ : RefreshTokenRecord).refreshToken =
        (fun _ : String =>
          "0123456789abcdef0123456789abcdef0123456789abcdef0123456789abcdef")
          raw) ∧
    (⟨1, 1,
      "0123456789abcdef0123456789abcdef0123456789abcdef0123456789abcdef",
      5 + 86400, none⟩ : RefreshTokenRecord).refreshToken ∉
      ["123e4567-e89b-12d3-a456-426614174000"] :=
  c6_hash_only_persistence
    (@Reachable.loginOk (fun s _ => s)
      (fun _ : String =>
        "0123456789abcdef0123456789abcdef0123456789abcdef0123456789abcdef")
      (fun _ _ => true) ⟨"sec", 900, 86400⟩
      ⟨[⟨1, "a@x.com", "bh", 0, "user", none⟩], [], 1⟩ [] 5
      "123e4567-e89b-12d3-a456-426614174000" "a@x.com" "pw"
      (IssueAccessToken (fun s _ => s) (toString 1) "user" "sec" 900 5)
      "123e4567-e89b-12d3-a456-426614174000"
      ⟨[⟨1, "a@x.com", "bh", 0, "user", none⟩],
       [⟨1, 1,
         "0123456789abcdef0123456789abcdef0123456789abcdef0123456789abcdef",
         5 + 86400, none⟩], 2⟩
      (Reachable.init [⟨1, "a@x.com", "bh", 0, "user", none⟩] 1)
      (by rfl) (by rfl))
    (fun _ => rfl)
    ⟨1, 1,
     "0123456789abcdef0123456789abcdef0123456789abcdef0123456789abcdef",
     5 + 86400, none⟩
    (List.mem_singleton.mpr rfl)

/-! ## The rotation race (two `Refresh` calls on the same valid token). -/

/-- A thread that has not yet finished: before its read, or holding the
originally read row and about to rotate. -/
def racePending (rec0 : RefreshTokenRecord) (p : RPhase) : Prop :=
  p = .start ∨ p = .rotating rec0

/-- A thread that finished unsuccessfully: service.go maps a failed read
to `ErrInvalidRefreshToken` and a failed rotate to `ErrLoginFailed`. -/
def raceFailed (p : RPhase) : Prop :=
  p = .done (.error .errInvalidRefreshToken) ∨
  p = .done (.error .errLoginFailed)

/-- A thread that finished successfully, returning its own fresh raw
secret. -/
def raceWon (raw : String) (p : RPhase) : Prop :=
  ∃ acc, p = .done (.ok (acc, raw))

/-- Invariant of the race over the single contested row: either nobody has
rotated yet (row intact, both threads pending), or exactly one thread has
rotated the row to its own fresh hash and won, while the other is pending
or has failed. -/
def raceInv (hash : String → String) (raw1 raw2 : String)
    (rec0 : RefreshTokenRecord) (persons : List Person) (n : Nat)
    (e2 : Time) (rs : RaceState) : Prop :=
  (rs.store = ⟨persons, [rec0], n⟩ ∧
    racePending rec0 rs.p1 ∧ racePending rec0 rs.p2) ∨
  (rs.store = ⟨persons,
      [{ rec0 with refreshToken := hash raw1, expiresAt := e2 }], n⟩ ∧
    raceWon raw1 rs.p1 ∧ (racePending rec0 rs.p2 ∨ raceFailed rs.p2)) ∨
  (rs.store = ⟨persons,
      [{ rec0 with refreshToken := hash raw2, expiresAt := e2 }], n⟩ ∧
    raceWon raw2 rs.p2 ∧ (racePending rec0 rs.p1 ∨ raceFailed rs.p1))

/-- A live owner makes `ReadPersonByID` succeed on any literal store over
the persons table. -/
theorem find_person_ok (persons : List Person)
    (recs : List RefreshTokenRecord) (n : Nat) (id : Nat)
    (h : persons.any (fun p => p.id == id && p.deletedAt.isNone) = true) :
    ∃ u, ReadPersonByID ⟨persons, recs, n⟩ id = .ok u := by
  unfold ReadPersonByID
  cases hf : persons.find? (fun p => p.id == id && p.deletedAt.isNone) with
  | some p => exact ⟨p, rfl⟩
  | none =>
      rcases List.any_eq_true.mp h with ⟨p, hp, hpred⟩
      exact absurd hpred (List.find?_eq_none.mp hf p hp)

/-- Reading the contested row while it is still live: the thread moves to
its rotate phase holding the row. -/
theorem rstep_start_live {macA : String → AccessClaims → String}
    {hash : String → String} {cfg : AuthConfig} {now : Time}
    {t raw : String} {rid pid : Nat} {e : Time} {persons : List Person}
    {n : Nat}
    (hvis : persons.any (fun p => p.id == pid && p.deletedAt.isNone) = true)
    (hval : ¬ e < now) :
    rstep macA hash cfg now t raw
        ⟨persons, [⟨rid, pid, hash t, e, none⟩], n⟩ .start =
      (⟨persons, [⟨rid, pid, hash t, e, none⟩], n⟩,
       .rotating ⟨rid, pid, hash t, e, none⟩) := by
  have hrd : ReadByToken ⟨persons, [⟨rid, pid, hash t, e, none⟩], n⟩ (hash t) =
      .ok ⟨rid, pid, hash t, e, none⟩ := by
    unfold ReadByToken findVisible
    simp [recVisible, hvis, List.find?]
  unfold rstep
  simp [hrd, hval]

/-- Rotating the contested row while it is still live: the rotation
succeeds, rewriting the row to the thread's fresh hash, and the thread
finishes successfully with its fresh raw secret. -/
theorem rstep_rotating_live {macA : String → AccessClaims → String}
    {hash : String → String} {cfg : AuthConfig} {now : Time}
    {t raw : String} {rid pid : Nat} {e : Time} {persons : List Person}
    {n : Nat}
    (hvis : persons.any (fun p => p.id == pid && p.deletedAt.isNone) = true)
    (hd : hash raw ≠ hash t) :
    ∃ acc, rstep macA hash cfg now t raw
        ⟨persons, [⟨rid, pid, hash t, e, none⟩], n⟩
        (.rotating ⟨rid, pid, hash t, e, none⟩) =
      (⟨persons, [⟨rid, pid, hash raw, now + cfg.refreshTokenTTL, none⟩], n⟩,
       .done (.ok (acc, raw))) := by
  obtain ⟨u, hu⟩ := find_person_ok persons [⟨rid, pid, hash t, e, none⟩] n pid hvis
  have hfv : findVisible ⟨persons, [⟨rid, pid, hash t, e, none⟩], n⟩ (hash t) =
      some ⟨rid, pid, hash t, e, none⟩ := by
    unfold findVisible
    simp [recVisible, hvis, List.find?]
  have hfresh : ∀ r ∈ (⟨persons, [⟨rid, pid, hash t, e, none⟩], n⟩ : Store).records,
      r.refreshToken ≠ hash raw := by
    intro r hr
    rw [List.mem_singleton.mp hr]
    exact Ne.symm hd
  have hrot := Rotate_eq_ok (e := now + cfg.refreshTokenTTL) hfv hfresh
  refine ⟨IssueAccessToken macA (toString u.id) u.role cfg.jwtSecret
      cfg.accessTokenTTL now, ?_⟩
  unfold rstep
  simp only [hu, hrot]
  simp

/-- Reading the contested row after the winner rotated it: the read
resolves nothing and the thread fails with `ErrInvalidRefreshToken`. -/
theorem rstep_start_rotated {macA : String → AccessClaims → String}
    {hash : String → String} {cfg : AuthConfig} {now : Time}
    {t raw rawW : String} {rid pid : Nat} {e2 : Time} {persons : List Person}
    {n : Nat}
    (hdW : hash rawW ≠ hash t) :
    rstep macA hash cfg now t raw
        ⟨persons, [⟨rid, pid, hash rawW, e2, none⟩], n⟩ .start =
      (⟨persons, [⟨rid, pid, hash rawW, e2, none⟩], n⟩,
       .done (.error .errInvalidRefreshToken)) := by
  have hb : (hash rawW == hash t) = false := beq_eq_false_iff_ne.mpr hdW
  have hrd : ReadByToken ⟨persons, [⟨rid, pid, hash rawW, e2, none⟩], n⟩
      (hash t) = .error .errRecordNotFoundByGivenToken := by
    unfold ReadByToken findVisible
    simp [List.find?, hb]
  unfold rstep
  simp only [hrd]

/-- Rotating after the winner already rotated: the atomic rotate no longer
resolves the old hash, and service.go maps the failure to
`ErrLoginFailed`. -/
theorem rstep_rotating_rotated {macA : String → AccessClaims → String}
    {hash : String → String} {cfg : AuthConfig} {now : Time}
    {t raw rawW : String} {rid pid : Nat} {e e2 : Time}
    {persons : List Person} {n : Nat}
    (hvis : persons.any (fun p => p.id == pid && p.deletedAt.isNone) = true)
    (hdW : hash rawW ≠ hash t) :
    rstep macA hash cfg now t raw
        ⟨persons, [⟨rid, pid, hash rawW, e2, none⟩], n⟩
        (.rotating ⟨rid, pid, hash t, e, none⟩) =
      (⟨persons, [⟨rid, pid, hash rawW, e2, none⟩], n⟩,
       .done (.error .errLoginFailed)) := by
  obtain ⟨u, hu⟩ := find_person_ok persons
    [⟨rid, pid, hash rawW, e2, none⟩] n pid hvis
  have hb : (hash rawW == hash t) = false := beq_eq_false_iff_ne.mpr hdW
  have hfv : findVisible ⟨persons, [⟨rid, pid, hash rawW, e2, none⟩], n⟩
      (hash t) = none := by
    unfold findVisible
    simp [List.find?, hb]
  have hrot : Rotate ⟨persons, [⟨rid, pid, hash rawW, e2, none⟩], n⟩
      (hash t) (hash raw) (now + cfg.refreshTokenTTL) =
      .error .errRecordNotFoundByGivenToken := by
    unfold Rotate
    rw [hfv]
  unfold rstep
  simp only [hu, hrot]

/-- A finished thread never moves again. -/
theorem rstep_done {macA : String → AccessClaims → String}
    {hash : String → String} {cfg : AuthConfig} {now : Time}
    {t raw : String} {st : Store}
    {res : Except AuthError (SignedToken AccessClaims × String)} :
    rstep macA hash cfg now t raw st (.done res) = (st, .done res) := rfl

/-- One scheduler step preserves the race invariant. -/
theorem raceInv_step {macA : String → AccessClaims → String}
    {hash : String → String} {cfg : AuthConfig} {now : Time}
    {t raw1 raw2 : String} {rid pid : Nat} {e : Time}
    {persons : List Person} {n : Nat}
    (hvis : persons.any (fun p => p.id == pid && p.deletedAt.isNone) = true)
    (hval : ¬ e < now)
    (hd1 : hash raw1 ≠ hash t) (hd2 : hash raw2 ≠ hash t)
    (rs : RaceState) (who : Bool)
    (hinv : raceInv hash raw1 raw2 ⟨rid, pid, hash t, e, none⟩ persons n
      (now + cfg.refreshTokenTTL) rs) :
    raceInv hash raw1 raw2 ⟨rid, pid, hash t, e, none⟩ persons n
      (now + cfg.refreshTokenTTL)
      (raceStep macA hash cfg now t raw1 raw2 rs who) := by
  obtain ⟨s, p1, p2⟩ := rs
  simp only [raceInv, racePending, raceFailed, raceWon] at hinv
  cases who with
  | true =>
      simp only [raceStep]
      rcases hinv with ⟨hs, hp1, hp2⟩ | ⟨hs, hw, hl⟩ | ⟨hs, hw, hl⟩
      · subst hs
        rcases hp1 with rfl | rfl
        · rw [rstep_start_live hvis hval]
          exact Or.inl ⟨rfl, Or.inr rfl, hp2⟩
        · obtain ⟨acc, hstep⟩ := rstep_rotating_live (e := e) hvis hd1
          rw [hstep]
          exact Or.inr (Or.inl ⟨rfl, ⟨acc, rfl⟩, Or.inl hp2⟩)
      · subst hs
        obtain ⟨acc, hacc⟩ := hw
        subst hacc
        rw [rstep_done]
        exact Or.inr (Or.inl ⟨rfl, ⟨acc, rfl⟩, hl⟩)
      · subst hs
        rcases hl with (rfl | rfl) | (rfl | rfl)
        · rw [rstep_start_rotated hd2]
          exact Or.inr (Or.inr ⟨rfl, hw, Or.inr (Or.inl rfl)⟩)
        · rw [rstep_rotating_rotated hvis hd2]
          exact Or.inr (Or.inr ⟨rfl, hw, Or.inr (Or.inr rfl)⟩)
        · rw [rstep_done]
          exact Or.inr (Or.inr ⟨rfl, hw, Or.inr (Or.inl rfl)⟩)
        · rw [rstep_done]
          exact Or.inr (Or.inr ⟨rfl, hw, Or.inr (Or.inr rfl)⟩)
  | false =>
      simp only [raceStep]
      rcases hinv with ⟨hs, hp1, hp2⟩ | ⟨hs, hw, hl⟩ | ⟨hs, hw, hl⟩
      · subst hs
        rcases hp2 with rfl | rfl
        · rw [rstep_start_live hvis hval]
          exact Or.inl ⟨rfl, hp1, Or.inr rfl⟩
        · obtain ⟨acc, hstep⟩ := rstep_rotating_live (e := e) hvis hd2
          rw [hstep]
          exact Or.inr (Or.inr ⟨rfl, ⟨acc, rfl⟩, Or.inl hp1⟩)
      · subst hs
        rcases hl with (rfl | rfl) | (rfl | rfl)
        · rw [rstep_start_rotated hd1]
          exact Or.inr (Or.inl ⟨rfl, hw, Or.inr (Or.inl rfl)⟩)
        · rw [rstep_rotating_rotated hvis hd1]
          exact Or.inr (Or.inl ⟨rfl, hw, Or.inr (Or.inr rfl)⟩)
        · rw [rstep_done]
          exact Or.inr (Or.inl ⟨rfl, hw, Or.inr (Or.inl rfl)⟩)
        · rw [rstep_done]
          exact Or.inr (Or.inl ⟨rfl, hw, Or.inr (Or.inr rfl)⟩)
      · subst hs
        obtain ⟨acc, hacc⟩ := hw
        subst hacc
        rw [rstep_done]
        exact Or.inr (Or.inr ⟨rfl, ⟨acc, rfl⟩, hl⟩)

/-- C9 (amended).  Rotation race: two concurrent `Refresh` calls present
the same valid refresh token over a live row; under every interleaving of
their atomic store transactions in which both calls have completed,
exactly one call succeeds (returning its own fresh token) and the other
fails — never both succeed, never both fail.  The loser's error, however,
is not always `ErrInvalidRefreshToken`: it is `ErrInvalidRefreshToken`
when its read ran after the winner's rotation, but `ErrLoginFailed` when
its read preceded it (service.go maps every `Rotate` failure to
`ErrLoginFailed`). -/
theorem c9_rotation_race {macA : String → AccessClaims → String}
    {hash : String → String} {cfg : AuthConfig} {now : Time}
    {t raw1 raw2 : String} {rid pid : Nat} {e : Time}
    {persons : List Person} {n : Nat}
    (hvis : persons.any (fun p => p.id == pid && p.deletedAt.isNone) = true)
    (hval : ¬ e < now)
    (hd1 : hash raw1 ≠ hash t) (hd2 : hash raw2 ≠ hash t) :
    ∀ (sched : List Bool)
      (r1 r2 : Except AuthError (SignedToken AccessClaims × String)),
      (runRace macA hash cfg now t raw1 raw2
        ⟨persons, [⟨rid, pid, hash t, e, none⟩], n⟩ sched).p1 = .done r1 →
      (runRace macA hash cfg now t raw1 raw2
        ⟨persons, [⟨rid, pid, hash t, e, none⟩], n⟩ sched).p2 = .done r2 →
      (((∃ acc, r1 = .ok (acc, raw1)) ∧
        (r2 = .error .errInvalidRefreshToken ∨ r2 = .error .errLoginFailed)) ∨
       ((∃ acc, r2 = .ok (acc, raw2)) ∧
        (r1 = .error .errInvalidRefreshToken ∨ r1 = .error .errLoginFailed))) := by
  have hfold : ∀ (sched : List Bool) (rs : RaceState),
      raceInv hash raw1 raw2 ⟨rid, pid, hash t, e, none⟩ persons n
        (now + cfg.refreshTokenTTL) rs →
      raceInv hash raw1 raw2 ⟨rid, pid, hash t, e, none⟩ persons n
        (now + cfg.refreshTokenTTL)
        (sched.foldl (raceStep macA hash cfg now t raw1 raw2) rs) := by
    intro sched
    induction sched with
    | nil => exact fun rs h => h
    | cons w rest ih =>
        intro rs h
        exact ih _ (raceInv_step hvis hval hd1 hd2 rs w h)
  intro sched r1 r2 h1 h2
  unfold runRace at h1 h2
  have hinv := hfold sched
    ⟨⟨persons, [⟨rid, pid, hash t, e, none⟩], n⟩, .start, .start⟩
    (Or.inl ⟨rfl, Or.inl rfl, Or.inl rfl⟩)
  simp only [raceInv, racePending, raceFailed, raceWon] at hinv
  rcases hinv with ⟨-, hp1, -⟩ | ⟨-, hw, hl⟩ | ⟨-, hw, hl⟩
  · rcases hp1 with hp | hp
    · rw [h1] at hp
      exact RPhase.noConfusion hp
    · rw [h1] at hp
      exact RPhase.noConfusion hp
  · obtain ⟨acc, hacc⟩ := hw
    rw [h1] at hacc
    injection hacc with h3
    refine Or.inl ⟨⟨acc, h3⟩, ?_⟩
    rcases hl with (hp | hp) | (hp | hp)
    · rw [h2] at hp
      exact RPhase.noConfusion hp
    · rw [h2] at hp
      exact RPhase.noConfusion hp
    · rw [h2] at hp
      injection hp with h4
      exact Or.inl h4
    · rw [h2] at hp
      injection hp with h4
      exact Or.inr h4
  · obtain ⟨acc, hacc⟩ := hw
    rw [h2] at hacc
    injection hacc with h3
    refine Or.inr ⟨⟨acc, h3⟩, ?_⟩
    rcases hl with (hp | hp) | (hp | hp)
    · rw [h1] at hp
      exact RPhase.noConfusion hp
    · rw [h1] at hp
      exact RPhase.noConfusion hp
    · rw [h1] at hp
      injection hp with h4
      exact Or.inl h4
    · rw [h1] at hp
      injection hp with h4
      exact Or.inr h4

/-- Witness for the amended C9: under the schedule where thread 1 runs to
completion first, thread 1 wins and thread 2 observes
`ErrInvalidRefreshToken`. -/
theorem c9_rotation_race_witness :
    ((∃ acc,
        (Except.ok (IssueAccessToken (fun (s : String) (_ : AccessClaims) => s)
            (toString 1) "user" "sec" 900 50, "r1") :
          Except AuthError (SignedToken AccessClaims × String)) =
          .ok (acc, "r1")) ∧
      ((Except.error .errInvalidRefreshToken :
          Except AuthError (SignedToken AccessClaims × String)) =
          .error .errInvalidRefreshToken ∨
       (Except.error .errInvalidRefreshToken :
          Except AuthError (SignedToken AccessClaims × String)) =
          .error .errLoginFailed)) ∨
    ((∃ acc,
        (Except.error .errInvalidRefreshToken :
          Except AuthError (SignedToken AccessClaims × String)) =
          .ok (acc, "r2")) ∧
      ((Except.ok (IssueAccessToken (fun (s : String) (_ : AccessClaims) => s)
            (toString 1) "user" "sec" 900 50, "r1") :
          Except AuthError (SignedToken AccessClaims × String)) =
          .error .errInvalidRefreshToken ∨
       (Except.ok (IssueAccessToken (fun (s : String) (_ : AccessClaims) => s)
            (toString 1) "user" "sec" 900 50, "r1") :
          Except AuthError (SignedToken AccessClaims × String)) =
          .error .errLoginFailed)) :=
  @c9_rotation_race (fun s _ => s) (fun s => String.append "H:" s)
    ⟨"sec", 900, 86400⟩ 50 "t" "r1" "r2" 1 1 100
    [⟨1, "a@x.com", "bh", 0, "user", none⟩] 2
    (by decide) (by decide) (by decide) (by decide)
    [true, true, false, false]
    (.ok (IssueAccessToken (fun s _ => s) (toString 1) "user" "sec" 900 50,
      "r1"))
    (.error .errInvalidRefreshToken) (by rfl) (by rfl)

/-- Counterexample to C9 as stated: under the interleaving
read1-read2-rotate1-rotate2 the losing call's error is `ErrLoginFailed`
(service.go maps the lost `Rotate` to `ErrLoginFailed`), not the
`ErrInvalidRefreshToken` the claim demands for the loser. -/
theorem c9_counterexample :
    (runRace (fun s _ => s) (fun s => String.append "H:" s)
        ⟨"sec", 900, 86400⟩ 50 "t" "r1" "r2"
        ⟨[⟨1, "a@x.com", "bh", 0, "user", none⟩],
         [⟨1, 1, "H:t", 100, none⟩], 2⟩
        [true, false, true, false]).p2 =
      .done (.error .errLoginFailed) ∧
    AuthError.errLoginFailed ≠ AuthError.errInvalidRefreshToken :=
  ⟨rfl, by decide⟩

end AuthService
